import Mathlib

/-!
Verification of the statement virtual table core (src/statement_vtab.c).

The C source is shallowly embedded in Lean:

- machine integers become Nat / Int, with explicit wraparound (mod 2^64)
  exactly where the C code relies on unsigned overflow;
- C byte buffers become List Nat (for the opaque idxStr payload) and
  List Char (for SQL text built by the schema builder);
- the SQLite host engine (prepare / bind / step / column-value /
  result-row production) is an external collaborator; it is modelled by
  an explicit behaviour record (StmtBehavior) whose exec field yields,
  for a given set of bindings, either an error code or the list of
  result rows of the compiled statement;
- allocation is assumed to succeed (the SQLITE_NOMEM paths of the C code
  are not modelled), and fallible C functions return Except / Option or
  an explicit (return code, state) pair.
-/

namespace StatementVtab

/-! SQLite result codes and constraint operators used by the source. -/

def SQLITE_OK : Int := 0

def SQLITE_ERROR : Int := 1

def SQLITE_MISUSE : Int := 21

def SQLITE_RANGE : Int := 25

def SQLITE_ROW : Int := 100

def SQLITE_DONE : Int := 101

def SQLITE_INDEX_CONSTRAINT_EQ : Nat := 2

def SQLITE_INDEX_CONSTRAINT_LIMIT : Nat := 73

def SQLITE_INDEX_CONSTRAINT_OFFSET : Nat := 74

/-- SIZE_MAX on the (64-bit) target platform. -/
def SIZE_MAX : Nat := 2 ^ 64 - 1

/-!
Parameter index codec (lines 186-204 of statement_vtab.c).

const static size_t param_idx_size = (sizeof(int)*CHAR_BIT+5)/6;
with sizeof(int)*CHAR_BIT = 32 on the modelled platform.
-/

def param_idx_size : Nat := (4 * 8 + 5) / 6

/-- encode_param_idx writes the fixed-width block for value param_idx into
the payload buffer at slot i; positions i*param_idx_size+j receive
((param_idx >> 6*j) & 63) + 33.  The block written for one slot is modelled
as the list of its param_idx_size bytes (the caller concatenates blocks in
slot order, which is how statement_vtab_best_index fills the buffer). -/
def encode_param_idx (param_idx : Nat) : List Nat :=
  (List.range param_idx_size).map (fun j => ((param_idx >>> (6 * j)) &&& 63) + 33)

/-- decode_param_idx reads the fixed-width block at slot i of the payload
buffer: param_idx |= (param_map[i*param_idx_size+j] - 33) << 6*j. -/
def decode_param_idx (i : Nat) (param_map : List Nat) : Nat :=
  (List.range param_idx_size).foldl
    (fun param_idx j =>
      param_idx ||| ((param_map.getD (i * param_idx_size + j) 0 - 33) <<< (6 * j))) 0

/-!
Best-index planner (statement_vtab_best_index, lines 232-297).
-/

/-- One entry of sqlite3_index_info.aConstraint: the column it targets
(iColumn, which is -1 for a rowid constraint), the operator, and the
usable flag. -/
structure sqlite3_index_constraint where
  iColumn : Int
  op : Nat
  usable : Bool
deriving DecidableEq, Inhabited

/-- The test at lines 242-244: the constraint is skipped (ignored) when it
is a LIMIT or OFFSET constraint or targets one of the output columns. -/
def constraint_skipped (num_outputs : Nat) (c : sqlite3_index_constraint) : Prop :=
  c.op = SQLITE_INDEX_CONSTRAINT_LIMIT ∨ c.op = SQLITE_INDEX_CONSTRAINT_OFFSET ∨
    c.iColumn < (num_outputs : Int)

instance (num_outputs : Nat) (c : sqlite3_index_constraint) :
    Decidable (constraint_skipped num_outputs c) := by
  unfold constraint_skipped; infer_instance

/-- The test at line 248: a non-skipped constraint that is unusable or is
not a strict equality makes the whole access path infeasible. -/
def constraint_rejected (num_outputs : Nat) (c : sqlite3_index_constraint) : Prop :=
  ¬constraint_skipped num_outputs c ∧
    (c.usable = false ∨ c.op ≠ SQLITE_INDEX_CONSTRAINT_EQ)

instance (num_outputs : Nat) (c : sqlite3_index_constraint) :
    Decidable (constraint_rejected num_outputs c) := by
  unfold constraint_rejected; infer_instance

/-- A constraint that receives an argvIndex: not skipped, usable, equality. -/
def constraint_accepted (num_outputs : Nat) (c : sqlite3_index_constraint) : Prop :=
  ¬constraint_skipped num_outputs c ∧ c.usable = true ∧
    c.op = SQLITE_INDEX_CONSTRAINT_EQ

instance (num_outputs : Nat) (c : sqlite3_index_constraint) :
    Decidable (constraint_accepted num_outputs c) := by
  unfold constraint_accepted; infer_instance

/-- Line 251: int col_index = aConstraint[i].iColumn - num_outputs
(only evaluated for accepted constraints, where iColumn >= num_outputs). -/
def col_index (num_outputs : Nat) (c : sqlite3_index_constraint) : Nat :=
  (c.iColumn - (num_outputs : Int)).toNat

/-- The running state of the first best-index loop (lines 238-261):
col_max, the uint64 bitmask used_cols, the accepted count
out_constraints, and the argvIndex values written into
aConstraintUsage (position i holds the argvIndex of constraint i,
0 meaning not used). -/
structure BestIndexAcc where
  col_max : Nat
  used_cols : Nat
  out_constraints : Nat
  usage : List Nat
deriving DecidableEq

/-- The loop at lines 240-261.  Returns none when the loop body hits the
return SQLITE_CONSTRAINT at line 249. -/
def best_index_loop (num_outputs : Nat) (acc : BestIndexAcc) :
    List sqlite3_index_constraint → Option BestIndexAcc
  | [] => some acc
  | c :: cs =>
    if c.op = SQLITE_INDEX_CONSTRAINT_LIMIT ∨ c.op = SQLITE_INDEX_CONSTRAINT_OFFSET ∨
        c.iColumn < (num_outputs : Int) then
      best_index_loop num_outputs { acc with usage := acc.usage ++ [0] } cs
    else if c.usable = false ∨ c.op ≠ SQLITE_INDEX_CONSTRAINT_EQ then
      none
    else
      let ci := col_index num_outputs c
      best_index_loop num_outputs
        { col_max := if ci + 1 > acc.col_max then ci + 1 else acc.col_max
          used_cols := if ci < 64 then acc.used_cols ||| (1 <<< ci) else acc.used_cols
          out_constraints := acc.out_constraints + 1
          usage := acc.usage ++ [ci + 1] } cs

/-- The 0-based parameter indices (col_index values) of the accepted
constraints, in visit order. -/
def accepted_cols (num_outputs : Nat) (cs : List sqlite3_index_constraint) : List Nat :=
  (cs.filter (fun c => decide (constraint_accepted num_outputs c))).map (col_index num_outputs)

/-- The argvIndex value the first best-index loop leaves on constraint i:
col_index+1 when accepted, 0 (untouched) when skipped. -/
def loop_usage (num_outputs : Nat) (cs : List sqlite3_index_constraint) : List Nat :=
  cs.map (fun c => if constraint_accepted num_outputs c then col_index num_outputs c + 1 else 0)

/-- The col_max value the first loop computes (line 255-256, as a fold
over the accepted column indices). -/
def acc_col_max (num_outputs : Nat) (cs : List sqlite3_index_constraint) : Nat :=
  (accepted_cols num_outputs cs).foldl (fun m x => if x + 1 > m then x + 1 else m) 0

/-- The used_cols bitmask the first loop computes (lines 257-258). -/
def acc_used_cols (num_outputs : Nat) (cs : List sqlite3_index_constraint) : Nat :=
  (accepted_cols num_outputs cs).foldl (fun u x => if x < 64 then u ||| (1 <<< x) else u) 0

/-- The test at line 269 that selects the no-payload (direct or empty)
plan: no accepted constraint, or the contiguity test against
required_cols succeeds. -/
def direct_plan_cond (cm used n : Nat) : Prop :=
  n = 0 ∨ (cm ≤ 64 ∧
    used = ((if cm < 64 then 1 <<< cm else 0) + (2 ^ 64 - 1)) % 2 ^ 64 ∧ n = cm)

instance (cm used n : Nat) : Decidable (direct_plan_cond cm used n) := by
  unfold direct_plan_cond; infer_instance

/-- The renumbering loop at lines 287-292: every nonzero argvIndex is
replaced by ++constraint_idx (so the k-th accepted constraint, counting
from 0 in visit order, ends with argvIndex k+1). -/
def map_usage (constraint_idx : Nat) : List Nat → List Nat
  | [] => []
  | 0 :: rest => 0 :: map_usage constraint_idx rest
  | (_ + 1) :: rest => (constraint_idx + 1) :: map_usage (constraint_idx + 1) rest

/-- The idxStr payload written by the loop at lines 287-292: the encoded
blocks of the original argvIndex values (col_index+1) of the accepted
constraints, concatenated in visit order.  The NUL terminator written at
line 294 is not part of the modelled payload. -/
def map_payload : List Nat → List Nat
  | [] => []
  | 0 :: rest => map_payload rest
  | (a + 1) :: rest => encode_param_idx (a + 1) ++ map_payload rest

/-- Outcome of statement_vtab_best_index: the SQLITE_CONSTRAINT return at
line 249, the SQLITE_ERROR return at line 279 (with pVTab->zErrMsg), or
SQLITE_OK together with the argvIndex assignments and the optional
idxStr payload. -/
inductive BestIndexResult where
  | constraint_violation : BestIndexResult
  | index_error (msg : List Char) : BestIndexResult
  | ok (usage : List Nat) (idxStr : Option (List Nat)) : BestIndexResult
deriving DecidableEq

/-- statement_vtab_best_index (lines 232-297). -/
def statement_vtab_best_index (num_outputs : Nat)
    (cs : List sqlite3_index_constraint) : BestIndexResult :=
  match best_index_loop num_outputs ⟨0, 0, 0, []⟩ cs with
  | none => .constraint_violation
  | some acc =>
    -- line 268: sqlite_uint64 required_cols = (col_max < 64 ? 1ull << col_max : 0ull)-1;
    let required_cols : Nat :=
      ((if acc.col_max < 64 then 1 <<< acc.col_max else 0) + (2 ^ 64 - 1)) % 2 ^ 64
    if acc.out_constraints = 0 ∨
        (acc.col_max ≤ 64 ∧ acc.used_cols = required_cols ∧
          acc.out_constraints = acc.col_max) then
      .ok acc.usage none
    else if acc.out_constraints > (SIZE_MAX - 1) / param_idx_size then
      .index_error ("Too many constraints to index: ".data ++ (toString acc.out_constraints).data)
    else
      .ok (map_usage 0 acc.usage) (some (map_payload acc.usage))

/-!
SQLite values and the modelled host statement engine.
-/

/-- An sqlite3_value.  The module never inspects values, it only passes
them through (bind_value, result_value), so the exact constructors are
irrelevant; FLOAT is omitted (nothing in the claims involves it). -/
inductive SqlValue where
  | null : SqlValue
  | integer (i : Int) : SqlValue
  | text (s : List Char) : SqlValue
  | blob (b : List Nat) : SqlValue
deriving DecidableEq

/-- Execution position of a compiled statement: not yet stepped (after
prepare or reset), positioned on a row with the remaining rows pending,
or exhausted. -/
inductive StmtRun where
  | initial : StmtRun
  | active (current : List SqlValue) (pending : List (List SqlValue)) : StmtRun
  | complete : StmtRun
deriving DecidableEq

/-- The behaviour the host engine gives one compiled statement: its bind
parameter count and, for every binding vector, either a step error code
or the full list of result rows the statement would produce. -/
structure StmtBehavior where
  nparams : Nat
  exec : List (Option SqlValue) → Except Int (List (List SqlValue))

/-- Mutable state of one compiled statement instance: the current
bindings (position p of the list is parameter p+1; none = unbound/NULL)
and the execution position. -/
structure StmtState where
  bindings : List (Option SqlValue)
  run : StmtRun
deriving DecidableEq

/-- sqlite3_reset: back to the start, bindings retained. -/
def sqlite3_reset (st : StmtState) : StmtState :=
  { st with run := .initial }

/-- sqlite3_clear_bindings: every parameter becomes unbound. -/
def sqlite3_clear_bindings (nparams : Nat) (st : StmtState) : StmtState :=
  { st with bindings := List.replicate nparams none }

/-- sqlite3_bind_value: binds v at 1-based position idx, failing with
SQLITE_RANGE when idx is out of range. -/
def sqlite3_bind_value (nparams : Nat) (st : StmtState) (idx : Nat) (v : SqlValue) :
    Except Int StmtState :=
  if 1 ≤ idx ∧ idx ≤ nparams then
    .ok { st with bindings := st.bindings.set (idx - 1) (some v) }
  else
    .error SQLITE_RANGE

/-- sqlite3_step: from the initial position the engine runs the statement
on the current bindings (error code, or first row / immediate
exhaustion); from a row it moves to the next pending row or exhaustion;
stepping a finished statement is an API misuse. -/
def sqlite3_step (b : StmtBehavior) (st : StmtState) : Int × StmtState :=
  match st.run with
  | .initial =>
    match b.exec st.bindings with
    | .error e => (e, st)
    | .ok [] => (SQLITE_DONE, { st with run := .complete })
    | .ok (r :: rs) => (SQLITE_ROW, { st with run := .active r rs })
  | .active _ pending =>
    match pending with
    | [] => (SQLITE_DONE, { st with run := .complete })
    | r :: rs => (SQLITE_ROW, { st with run := .active r rs })
  | .complete => (SQLITE_MISUSE, st)

/-- struct statement_cursor (lines 25-31): the private statement
instance, the rowid counter, and the retained argument vector
(param_argc / param_argv). -/
structure statement_cursor where
  stmt : StmtState
  rowid : Int
  param_argc : Nat
  param_argv : List SqlValue
deriving DecidableEq

/-- The target parameter position for argv position i (line 217):
decode_param_idx(i, idxStr) when an idxStr payload is present, i+1
otherwise. -/
def filter_target (idxStr : Option (List Nat)) (i : Nat) : Nat :=
  match idxStr with
  | some m => decode_param_idx i m
  | none => i + 1

/-- The bind loop of statement_vtab_filter (lines 216-220): argv position
i is bound at parameter decode_param_idx(i, idxStr) when idxStr is
present, at i+1 otherwise; the first failing bind aborts with its error
code and the statement state reached so far. -/
def bind_params (b : StmtBehavior) (idxStr : Option (List Nat)) (i : Nat) (st : StmtState) :
    List SqlValue → Except (Int × StmtState) StmtState
  | [] => .ok st
  | v :: vs =>
    let param_idx := filter_target idxStr i
    match sqlite3_bind_value b.nparams st param_idx v with
    | .error ret => .error (ret, st)
    | .ok st2 => bind_params b idxStr (i + 1) st2 vs

/-- statement_vtab_filter (lines 208-230): reset rowid to 1, reset the
statement and clear its bindings, bind every argument, execute one step,
and on success retain the argument vector. -/
def statement_vtab_filter (b : StmtBehavior) (cur : statement_cursor)
    (idxStr : Option (List Nat)) (argv : List SqlValue) : Int × statement_cursor :=
  let cur1 := { cur with rowid := 1 }
  let st0 := sqlite3_clear_bindings b.nparams (sqlite3_reset cur1.stmt)
  match bind_params b idxStr 0 st0 argv with
  | .error (ret, st) => (ret, { cur1 with stmt := st })
  | .ok st1 =>
    let res := sqlite3_step b st1
    if res.1 = SQLITE_ROW ∨ res.1 = SQLITE_DONE then
      (SQLITE_OK, { cur1 with stmt := res.2, param_argc := argv.length, param_argv := argv })
    else
      (res.1, { cur1 with stmt := res.2 })

/-- statement_vtab_next (lines 157-165). -/
def statement_vtab_next (b : StmtBehavior) (cur : statement_cursor) : Int × statement_cursor :=
  let res := sqlite3_step b cur.stmt
  if res.1 = SQLITE_ROW then
    (SQLITE_OK, { cur with stmt := res.2, rowid := cur.rowid + 1 })
  else if res.1 = SQLITE_DONE then
    (SQLITE_OK, { cur with stmt := res.2 })
  else
    (res.1, { cur with stmt := res.2 })

/-- statement_vtab_rowid (lines 167-170). -/
def statement_vtab_rowid (cur : statement_cursor) : Int :=
  cur.rowid

/-- statement_vtab_column (lines 176-184): an output column yields the
current row's value, a hidden column within param_argc echoes the
retained argument, anything else leaves the result context untouched
(modelled as none). -/
def statement_vtab_column (num_outputs : Nat) (cur : statement_cursor) (i : Nat) :
    Option SqlValue :=
  if i < num_outputs then
    match cur.stmt.run with
    | .active current _ => current[i]?
    | _ => none
  else if i - num_outputs < cur.param_argc then
    cur.param_argv[i - num_outputs]?
  else
    none

/-!
Schema builder (build_create_statement, lines 33-55).  SQL text is
modelled as List Char (the sqlite3_str buffer).
-/

/-- The single-quote character, kept out of literals. -/
def squote : Char := Char.ofNat 39

/-- The %Q conversion of sqlite3_str_appendf: surround with single
quotes, doubling every embedded single quote. -/
def quote_q (s : List Char) : List Char :=
  [squote] ++ s.flatMap (fun c => if c = squote then [c, c] else [c]) ++ [squote]

/-- One result column as seen through sqlite3_column_name /
sqlite3_column_decltype (name is assumed retrievable; the NULL-name
allocation-failure path of the C code is not modelled). -/
structure ColumnInfo where
  name : List Char
  decltype : Option (List Char)
deriving DecidableEq

/-- build_create_statement: "CREATE TABLE x( ", then for every result
column the fragment %Q %s"," (decltype rendered empty when absent), then
for every bind parameter either %Q" hidden," on the parameter's name
with its first (marker) character dropped, or "'%d' hidden," with the
1-based parameter position, and finally the last byte of the buffer is
overwritten with a closing parenthesis. -/
def build_create_statement (outputs : List ColumnInfo)
    (params : List (Option (List Char))) : List Char :=
  let frags_out := outputs.map
    (fun c => quote_q c.name ++ [' '] ++ c.decltype.getD [] ++ [','])
  let frags_in := params.mapIdx
    (fun i name => match name with
      | some nm => quote_q (nm.drop 1) ++ " hidden,".data
      | none => [squote] ++ (toString (i + 1)).data ++ [squote] ++ " hidden,".data)
  let sql := "CREATE TABLE x( ".data ++ frags_out.flatten ++ frags_in.flatten
  sql.dropLast ++ [')']

/-- Claim-side rendering (from the spec's wording, for comparison with
build_create_statement): one output column's fragment, its quoted name
followed by its declared type, empty when absent. -/
def out_fragment (c : ColumnInfo) : List Char :=
  quote_q c.name ++ [' '] ++ c.decltype.getD []

/-- Claim-side rendering: the hidden-column fragment of bind parameter
i (0-based), named by the declared name with its leading marker
character stripped, or by the 1-based ordinal when unnamed. -/
def param_fragment (i : Nat) (name : Option (List Char)) : List Char :=
  match name with
  | some nm => quote_q (nm.drop 1) ++ " hidden".data
  | none => [squote] ++ (toString (i + 1)).data ++ [squote] ++ " hidden".data

/-- Claim-side rendering: comma-separated column fragments. -/
def comma_join : List (List Char) → List Char
  | [] => []
  | [f] => f
  | f :: f2 :: fs => f ++ [','] ++ comma_join (f2 :: fs)

/-!
Table creation (statement_vtab_create, lines 63-131).
-/

/-- What statement_vtab_create needs from a successful sqlite3_prepare_v2
of the inner statement text: the read-only flag, the result columns and
the bind parameter names (none = unnamed positional parameter). -/
structure PrepareResult where
  readonly : Bool
  outputs : List ColumnInfo
  params : List (Option (List Char))

/-- struct statement_vtab (lines 16-23): the stored text and the two
counts (the db handle and base are host plumbing). -/
structure statement_vtab where
  sql : List Char
  num_inputs : Nat
  num_outputs : Nat
deriving DecidableEq

/-- statement_vtab_create: argv are the module arguments
(module name, database name, table name, then the configuration
arguments); argv[3] must exist, have length at least 3 and be
parenthesized; the stripped text is prepared through the host (modelled
by the prepare collaborator, which returns either an error code with
message or a PrepareResult) and must be read-only.  Error returns carry
the C return code and message; the vtab is only produced on full
success.  sqlite3_declare_vtab is assumed to succeed (its failure path
only propagates a host error message). -/
def statement_vtab_create
    (prepare : List Char → Except (Int × List Char) PrepareResult)
    (argv : List (List Char)) : Except (Int × List Char) statement_vtab :=
  if argv.length < 4 ∨ (argv.getD 3 []).length < 3 then
    .error (SQLITE_MISUSE, "no statement provided".data)
  else
    let a := argv.getD 3 []
    if a.head? ≠ some '(' ∨ a.getLast? ≠ some ')' then
      .error (SQLITE_MISUSE, "statement must be parenthesized".data)
    else
      match prepare ((a.drop 1).dropLast) with
      | .error (code, msg) => .error (code, msg)
      | .ok p =>
        if p.readonly = false then
          .error (SQLITE_ERROR, "Statement must be read only.".data)
        else
          .ok { sql := (a.drop 1).dropLast
                num_inputs := p.params.length
                num_outputs := p.outputs.length }

/-!
Lemmas and claim theorems.

Codec lemmas (ParameterIndexCodec, claims C4 and C2).
-/

theorem range_param_idx_size : List.range 6 = [0, 1, 2, 3, 4, 5] := rfl

theorem param_idx_size_eq : param_idx_size = 6 := rfl

theorem encode_param_idx_length (x : Nat) :
    (encode_param_idx x).length = param_idx_size := by
  simp [encode_param_idx]

/-- Unfolding decode over an encoded block at slot 0. -/
theorem decode_encode_or (x : Nat) (rest : List Nat) :
    decode_param_idx 0 (encode_param_idx x ++ rest) =
      (x &&& 63) |||
        (((x >>> 6) &&& 63) <<< 6) |||
        (((x >>> 12) &&& 63) <<< 12) |||
        (((x >>> 18) &&& 63) <<< 18) |||
        (((x >>> 24) &&& 63) <<< 24) |||
        (((x >>> 30) &&& 63) <<< 30) := by
  simp [decode_param_idx, encode_param_idx, range_param_idx_size, param_idx_size]

/-- Round trip at slot 0 for any value below 2^36 (six 6-bit groups). -/
theorem decode_encode_eq (x : Nat) (rest : List Nat) (h : x < 2 ^ 36) :
    decode_param_idx 0 (encode_param_idx x ++ rest) = x := by
  rw [decode_encode_or]
  apply Nat.eq_of_testBit_eq
  intro k
  have h63 : (63 : Nat) = 2 ^ 6 - 1 := rfl
  simp only [Nat.testBit_lor, Nat.testBit_shiftLeft, Nat.testBit_land, Nat.testBit_shiftRight,
    h63, Nat.testBit_two_pow_sub_one]
  rcases Nat.lt_or_ge k 36 with hk | hk
  · interval_cases k <;> simp
  · have hx : x.testBit k = false := by
      apply Nat.testBit_lt_two_pow
      calc x < 2 ^ 36 := h
        _ ≤ 2 ^ k := Nat.pow_le_pow_right (by omega) hk
    simp [hx]
    omega

/-- Reading slot i of a buffer whose first d blocks are skipped. -/
theorem decode_param_idx_shift (i d : Nat) (A l : List Nat)
    (h : A.length = d * param_idx_size) (hd : d ≤ i) :
    decode_param_idx i (A ++ l) = decode_param_idx (i - d) l := by
  have hps : param_idx_size = 6 := rfl
  unfold decode_param_idx
  apply List.foldl_ext
  intro acc j hj
  have hle : A.length ≤ i * param_idx_size + j := by
    rw [h, hps]; omega
  rw [List.getD_append_right A l 0 _ hle, h]
  have hidx : i * param_idx_size + j - d * param_idx_size = (i - d) * param_idx_size + j := by
    rw [hps]; omega
  rw [hidx]

/-- Every byte the encoder writes lies in the printable range [33, 96]. -/
theorem encode_param_idx_bounds (x : Nat) : ∀ c ∈ encode_param_idx x, 33 ≤ c ∧ c ≤ 96 := by
  intro c hc
  simp only [encode_param_idx, List.mem_map, List.mem_range] at hc
  obtain ⟨j, hj, rfl⟩ := hc
  have h1 : (x >>> (6 * j)) &&& 63 ≤ 63 := Nat.and_le_right
  omega

/-- Claim C4: for every non-negative integer x representable in the
platform's int width (x < 2^31), decoding the fixed-width encoding of x
at the same slot index returns x, and every character the encoder writes
is a printable non-NUL byte (every byte lies in [33, 96], each 6-bit
group being biased by +33). -/
theorem claim_C4 (x : Nat) (hx : x < 2 ^ 31)
    (i : Nat) (A rest : List Nat) (hA : A.length = i * param_idx_size) :
    decode_param_idx i (A ++ (encode_param_idx x ++ rest)) = x ∧
      ∀ c ∈ encode_param_idx x, 33 ≤ c ∧ c ≤ 96 := by
  constructor
  · rw [decode_param_idx_shift i i A _ hA (Nat.le_refl i), Nat.sub_self,
      decode_encode_eq x rest (by omega)]
  · exact encode_param_idx_bounds x

theorem claim_C4_witness :
    ((2 ^ 31 - 1 : Nat) < 2 ^ 31 ∧ (encode_param_idx 7).length = 1 * param_idx_size) ∧
      decode_param_idx 1 (encode_param_idx 7 ++ (encode_param_idx (2 ^ 31 - 1) ++ [])) =
          2 ^ 31 - 1 ∧
        ∀ c ∈ encode_param_idx (2 ^ 31 - 1), 33 ≤ c ∧ c ≤ 96 :=
  ⟨⟨by decide, by decide⟩,
    claim_C4 (2 ^ 31 - 1) (by decide) 1 (encode_param_idx 7) [] (by decide)⟩

/-!
Best-index planner lemmas (claims C1, C2, C3, C9).
-/

/-- Every constraint is skipped, rejected or accepted by the loop body. -/
theorem constraint_trichotomy (num_outputs : Nat) (c : sqlite3_index_constraint) :
    constraint_skipped num_outputs c ∨ constraint_rejected num_outputs c ∨
      constraint_accepted num_outputs c := by
  by_cases hs : constraint_skipped num_outputs c
  · exact Or.inl hs
  · by_cases hu : c.usable = true
    · by_cases he : c.op = SQLITE_INDEX_CONSTRAINT_EQ
      · exact Or.inr (Or.inr ⟨hs, hu, he⟩)
      · exact Or.inr (Or.inl ⟨hs, Or.inr he⟩)
    · exact Or.inr (Or.inl ⟨hs, Or.inl (by simpa using hu)⟩)

/-- A skipped constraint is not accepted. -/
theorem skipped_not_accepted (num_outputs : Nat) (c : sqlite3_index_constraint)
    (h : constraint_skipped num_outputs c) : ¬constraint_accepted num_outputs c :=
  fun hacc => hacc.1 h

/-- On a rejection-free list the loop never fails and its final state is
given by folds over the accepted column indices. -/
theorem best_index_loop_eq (num_outputs : Nat) (cs : List sqlite3_index_constraint) :
    ∀ acc : BestIndexAcc, (∀ c ∈ cs, ¬constraint_rejected num_outputs c) →
    best_index_loop num_outputs acc cs = some
      { col_max := (accepted_cols num_outputs cs).foldl
          (fun m x => if x + 1 > m then x + 1 else m) acc.col_max
        used_cols := (accepted_cols num_outputs cs).foldl
          (fun u x => if x < 64 then u ||| (1 <<< x) else u) acc.used_cols
        out_constraints := acc.out_constraints + (accepted_cols num_outputs cs).length
        usage := acc.usage ++ loop_usage num_outputs cs } := by
  induction cs with
  | nil => intro acc _; simp [best_index_loop, accepted_cols, loop_usage]
  | cons c t ih =>
    intro acc hok
    have hokt : ∀ d ∈ t, ¬constraint_rejected num_outputs d :=
      fun d hd => hok d (List.mem_cons_of_mem c hd)
    rcases constraint_trichotomy num_outputs c with hs | hr | ha
    · have hna : ¬constraint_accepted num_outputs c := skipped_not_accepted _ _ hs
      have hs' : c.op = SQLITE_INDEX_CONSTRAINT_LIMIT ∨
          c.op = SQLITE_INDEX_CONSTRAINT_OFFSET ∨ c.iColumn < (num_outputs : Int) := hs
      have hstep : best_index_loop num_outputs acc (c :: t) =
          best_index_loop num_outputs { acc with usage := acc.usage ++ [0] } t := by
        simp only [best_index_loop]
        rw [if_pos hs']
      rw [hstep, ih _ hokt]
      simp [accepted_cols, loop_usage, hna]
    · exact absurd hr (hok c (List.mem_cons_self c t))
    · have hs : ¬constraint_skipped num_outputs c := ha.1
      have hs' : ¬(c.op = SQLITE_INDEX_CONSTRAINT_LIMIT ∨
          c.op = SQLITE_INDEX_CONSTRAINT_OFFSET ∨ c.iColumn < (num_outputs : Int)) := hs
      have hno : ¬(c.usable = false ∨ c.op ≠ SQLITE_INDEX_CONSTRAINT_EQ) := by
        push_neg
        exact ⟨by simp [ha.2.1], ha.2.2⟩
      have hstep : best_index_loop num_outputs acc (c :: t) =
          best_index_loop num_outputs
            { col_max := if col_index num_outputs c + 1 > acc.col_max then
                col_index num_outputs c + 1 else acc.col_max
              used_cols := if col_index num_outputs c < 64 then
                acc.used_cols ||| (1 <<< col_index num_outputs c) else acc.used_cols
              out_constraints := acc.out_constraints + 1
              usage := acc.usage ++ [col_index num_outputs c + 1] } t := by
        simp only [best_index_loop]
        rw [if_neg hs', if_neg hno]
      rw [hstep, ih _ hokt]
      simp [accepted_cols, loop_usage, ha, Nat.add_assoc, Nat.add_comm 1]

/-- The loop fails exactly when some constraint is rejected. -/
theorem best_index_loop_none (num_outputs : Nat) (cs : List sqlite3_index_constraint) :
    ∀ acc : BestIndexAcc, (best_index_loop num_outputs acc cs = none ↔
      ∃ c ∈ cs, constraint_rejected num_outputs c) := by
  induction cs with
  | nil => intro acc; simp [best_index_loop]
  | cons c t ih =>
    intro acc
    rcases constraint_trichotomy num_outputs c with hs | hr | ha
    · have hnr : ¬constraint_rejected num_outputs c := fun hr => hr.1 hs
      have hs' : c.op = SQLITE_INDEX_CONSTRAINT_LIMIT ∨
          c.op = SQLITE_INDEX_CONSTRAINT_OFFSET ∨ c.iColumn < (num_outputs : Int) := hs
      have hstep : best_index_loop num_outputs acc (c :: t) =
          best_index_loop num_outputs { acc with usage := acc.usage ++ [0] } t := by
        simp only [best_index_loop]
        rw [if_pos hs']
      rw [hstep, ih]
      simp [hnr]
    · have hs' : ¬(c.op = SQLITE_INDEX_CONSTRAINT_LIMIT ∨
          c.op = SQLITE_INDEX_CONSTRAINT_OFFSET ∨ c.iColumn < (num_outputs : Int)) := hr.1
      have hyes : c.usable = false ∨ c.op ≠ SQLITE_INDEX_CONSTRAINT_EQ := hr.2
      have hstep : best_index_loop num_outputs acc (c :: t) = none := by
        simp only [best_index_loop]
        rw [if_neg hs', if_pos hyes]
      rw [hstep]
      simp only [true_iff]
      exact ⟨c, List.mem_cons_self c t, hr⟩
    · have hs : ¬constraint_skipped num_outputs c := ha.1
      have hnr : ¬constraint_rejected num_outputs c := fun hr => by
        rcases hr.2 with h | h
        · rw [ha.2.1] at h; exact Bool.noConfusion h
        · exact h ha.2.2
      have hs' : ¬(c.op = SQLITE_INDEX_CONSTRAINT_LIMIT ∨
          c.op = SQLITE_INDEX_CONSTRAINT_OFFSET ∨ c.iColumn < (num_outputs : Int)) := hs
      have hno : ¬(c.usable = false ∨ c.op ≠ SQLITE_INDEX_CONSTRAINT_EQ) := by
        push_neg
        exact ⟨by simp [ha.2.1], ha.2.2⟩
      have hstep : best_index_loop num_outputs acc (c :: t) =
          best_index_loop num_outputs
            { col_max := if col_index num_outputs c + 1 > acc.col_max then
                col_index num_outputs c + 1 else acc.col_max
              used_cols := if col_index num_outputs c < 64 then
                acc.used_cols ||| (1 <<< col_index num_outputs c) else acc.used_cols
              out_constraints := acc.out_constraints + 1
              usage := acc.usage ++ [col_index num_outputs c + 1] } t := by
        simp only [best_index_loop]
        rw [if_neg hs', if_neg hno]
      rw [hstep, ih]
      simp [hnr]

/-- The col_max fold is bounded by k iff the seed and all x+1 are. -/
theorem colmax_foldl_le (A : List Nat) : ∀ m k : Nat,
    (A.foldl (fun m x => if x + 1 > m then x + 1 else m) m ≤ k ↔
      m ≤ k ∧ ∀ x ∈ A, x + 1 ≤ k) := by
  induction A with
  | nil => simp
  | cons a t ih =>
    intro m k
    simp only [List.foldl_cons, List.mem_cons]
    rw [ih]
    constructor
    · rintro ⟨h1, h2⟩
      refine ⟨?_, ?_⟩
      · by_cases h : a + 1 > m
        · rw [if_pos h] at h1; omega
        · rwa [if_neg h] at h1
      · rintro x (rfl | hx)
        · by_cases h : x + 1 > m
          · rwa [if_pos h] at h1
          · rw [if_neg h] at h1; omega
        · exact h2 x hx
    · rintro ⟨h1, h2⟩
      refine ⟨?_, fun x hx => h2 x (Or.inr hx)⟩
      have := h2 a (Or.inl rfl)
      by_cases h : a + 1 > m
      · rwa [if_pos h]
      · rwa [if_neg h]

/-- Every accepted index is below the computed col_max. -/
theorem colmax_foldl_mem (A : List Nat) (m : Nat) (x : Nat) (hx : x ∈ A) :
    x + 1 ≤ A.foldl (fun m x => if x + 1 > m then x + 1 else m) m :=
  ((colmax_foldl_le A m _).mp (Nat.le_refl _)).2 x hx

/-- The seed is below the computed col_max. -/
theorem colmax_foldl_init (A : List Nat) (m : Nat) :
    m ≤ A.foldl (fun m x => if x + 1 > m then x + 1 else m) m :=
  ((colmax_foldl_le A m _).mp (Nat.le_refl _)).1

/-- Bit k of the used_cols fold: the seed's bit, or k is a tracked
(below 64) member of the accepted index list. -/
theorem used_foldl_testBit (A : List Nat) : ∀ u k : Nat,
    (A.foldl (fun u x => if x < 64 then u ||| (1 <<< x) else u) u).testBit k =
      (u.testBit k || decide (k ∈ A ∧ k < 64)) := by
  induction A with
  | nil => simp
  | cons a t ih =>
    intro u k
    simp only [List.foldl_cons]
    rw [ih]
    by_cases ha : a < 64
    · rw [if_pos ha]
      rw [Nat.testBit_lor, Nat.one_shiftLeft, Nat.testBit_two_pow]
      by_cases h1 : k = a
      · subst h1
        simp [ha, List.mem_cons]
      · by_cases h2 : k ∈ t <;> by_cases h3 : k < 64 <;>
          simp [h1, h2, h3, List.mem_cons, Ne.symm h1]
    · rw [if_neg ha]
      have hme : (k ∈ a :: t ∧ k < 64) ↔ (k ∈ t ∧ k < 64) := by
        simp only [List.mem_cons]
        constructor
        · rintro ⟨rfl | hk, h64⟩
          · omega
          · exact ⟨hk, h64⟩
        · rintro ⟨hk, h64⟩; exact ⟨Or.inr hk, h64⟩
      congr 1
      exact decide_eq_decide.mpr hme.symm

/-- When the accepted indices are exactly the interval below m (m at most
64), the used_cols bitmask is the full mask 2^m - 1. -/
theorem used_foldl_full (A : List Nat) (m : Nat) (hm : m ≤ 64)
    (hiff : ∀ x, x ∈ A ↔ x < m) :
    A.foldl (fun u x => if x < 64 then u ||| (1 <<< x) else u) 0 = 2 ^ m - 1 := by
  apply Nat.eq_of_testBit_eq
  intro k
  rw [used_foldl_testBit, Nat.zero_testBit, Bool.false_or, Nat.testBit_two_pow_sub_one]
  by_cases hk : k < m
  · simp [hk, (hiff k).mpr hk]
    omega
  · have h2 : k ∉ A := fun h => hk ((hiff k).mp h)
    simp [hk, h2]

/-- The value of the required_cols expression at line 268 for col_max at
most 64: the full mask below col_max. -/
theorem required_cols_eq (cm : Nat) (h : cm ≤ 64) :
    ((if cm < 64 then 1 <<< cm else 0) + (2 ^ 64 - 1)) % 2 ^ 64 = 2 ^ cm - 1 := by
  by_cases h1 : cm < 64
  · rw [if_pos h1, Nat.one_shiftLeft]
    have h2 : (2 : Nat) ^ cm < 2 ^ 64 := Nat.pow_lt_pow_right (by omega) h1
    have h3 : (1 : Nat) ≤ 2 ^ cm := Nat.one_le_two_pow
    calc (2 ^ cm + (2 ^ 64 - 1)) % 2 ^ 64
        = (2 ^ 64 + (2 ^ cm - 1)) % 2 ^ 64 := by congr 1; omega
      _ = (2 ^ cm - 1) % 2 ^ 64 := Nat.add_mod_left _ _
      _ = 2 ^ cm - 1 := Nat.mod_eq_of_lt (by omega)
  · have h2 : cm = 64 := by omega
    subst h2
    rw [if_neg h1, Nat.zero_add]
    exact Nat.mod_eq_of_lt (by omega)

/-- Full characterization of the planner on a rejection-free constraint
list, with the loop state written as folds over the accepted indices. -/
theorem best_index_ok_eq (num_outputs : Nat) (cs : List sqlite3_index_constraint)
    (hnr : ∀ c ∈ cs, ¬constraint_rejected num_outputs c) :
    statement_vtab_best_index num_outputs cs =
      if (accepted_cols num_outputs cs).length = 0 ∨
          ((accepted_cols num_outputs cs).foldl (fun m x => if x + 1 > m then x + 1 else m) 0 ≤ 64 ∧
            (accepted_cols num_outputs cs).foldl (fun u x => if x < 64 then u ||| (1 <<< x) else u) 0 =
              ((if (accepted_cols num_outputs cs).foldl (fun m x => if x + 1 > m then x + 1 else m) 0 < 64 then
                  1 <<< (accepted_cols num_outputs cs).foldl (fun m x => if x + 1 > m then x + 1 else m) 0
                else 0) + (2 ^ 64 - 1)) % 2 ^ 64 ∧
            (accepted_cols num_outputs cs).length =
              (accepted_cols num_outputs cs).foldl (fun m x => if x + 1 > m then x + 1 else m) 0) then
        .ok (loop_usage num_outputs cs) none
      else if (accepted_cols num_outputs cs).length > (SIZE_MAX - 1) / param_idx_size then
        .index_error ("Too many constraints to index: ".data ++
          (toString (accepted_cols num_outputs cs).length).data)
      else
        .ok (map_usage 0 (loop_usage num_outputs cs))
          (some (map_payload (loop_usage num_outputs cs))) := by
  unfold statement_vtab_best_index
  rw [best_index_loop_eq num_outputs cs _ hnr]
  simp only [Nat.zero_add, List.nil_append]

/-- best_index_ok_eq restated through the named condition and fold
abbreviations, convenient for rewriting. -/
theorem best_index_cond_eq (num_outputs : Nat) (cs : List sqlite3_index_constraint)
    (hnr : ∀ c ∈ cs, ¬constraint_rejected num_outputs c) :
    statement_vtab_best_index num_outputs cs =
      if direct_plan_cond (acc_col_max num_outputs cs) (acc_used_cols num_outputs cs)
          (accepted_cols num_outputs cs).length then
        .ok (loop_usage num_outputs cs) none
      else if (accepted_cols num_outputs cs).length > (SIZE_MAX - 1) / param_idx_size then
        .index_error ("Too many constraints to index: ".data ++
          (toString (accepted_cols num_outputs cs).length).data)
      else
        .ok (map_usage 0 (loop_usage num_outputs cs))
          (some (map_payload (loop_usage num_outputs cs))) := by
  rw [best_index_ok_eq num_outputs cs hnr]
  rfl

/-- Accepted-free lists give the all-zero usage vector. -/
theorem loop_usage_all_zero (num_outputs : Nat) (cs : List sqlite3_index_constraint)
    (h : accepted_cols num_outputs cs = []) :
    loop_usage num_outputs cs = List.replicate cs.length 0 := by
  have hnone : ∀ c ∈ cs, ¬constraint_accepted num_outputs c := by
    intro c hc hacc
    have : (cs.filter (fun c => decide (constraint_accepted num_outputs c))) = [] :=
      List.map_eq_nil_iff.mp h
    have := List.filter_eq_nil_iff.mp this c hc
    simp [hacc] at this
  refine List.eq_replicate_iff.mpr ⟨by simp [loop_usage], ?_⟩
  intro b hb
  simp only [loop_usage, List.mem_map] at hb
  obtain ⟨c, hc, rfl⟩ := hb
  rw [if_neg (hnone c hc)]

/-- Claim C1: with no rejected constraint, (a) zero accepted constraints
plan successfully with no bindings (all argvIndex 0) and no payload, and
(b) a nonempty accepted set whose distinct 0-based parameter indices all
lie below 64 (the exactly-tracked range) and form the contiguous
interval below m, with accepted count m, plans as a direct plan giving
each accepted constraint argvIndex col_index+1 and no payload. -/
theorem claim_C1 (num_outputs : Nat) (cs : List sqlite3_index_constraint)
    (hnr : ∀ c ∈ cs, ¬constraint_rejected num_outputs c) :
    (accepted_cols num_outputs cs = [] →
      statement_vtab_best_index num_outputs cs =
        .ok (List.replicate cs.length 0) none) ∧
    ∀ m : Nat, accepted_cols num_outputs cs ≠ [] →
      (∀ x ∈ accepted_cols num_outputs cs, x < 64) →
      (∀ x : Nat, x ∈ accepted_cols num_outputs cs ↔ x < m) →
      (accepted_cols num_outputs cs).length = m →
      statement_vtab_best_index num_outputs cs =
        .ok (loop_usage num_outputs cs) none := by
  constructor
  · intro hA
    rw [best_index_cond_eq num_outputs cs hnr]
    have hcond : direct_plan_cond (acc_col_max num_outputs cs) (acc_used_cols num_outputs cs)
        (accepted_cols num_outputs cs).length := Or.inl (by simp [hA])
    rw [if_pos hcond, loop_usage_all_zero num_outputs cs hA]
  · intro m hne h64 hiff hlen
    rw [best_index_cond_eq num_outputs cs hnr]
    have hcm : acc_col_max num_outputs cs = m := by
      apply Nat.le_antisymm
      · unfold acc_col_max
        rw [colmax_foldl_le]
        exact ⟨Nat.zero_le m, fun x hx => (hiff x).mp hx⟩
      · rcases Nat.eq_zero_or_pos m with h0 | hpos
        · omega
        · have hmem : m - 1 ∈ accepted_cols num_outputs cs := (hiff (m - 1)).mpr (by omega)
          have := colmax_foldl_mem (accepted_cols num_outputs cs) 0 (m - 1) hmem
          unfold acc_col_max
          omega
    have hpos : 0 < m := by
      rcases Nat.eq_zero_or_pos m with h0 | hpos
      · rcases List.exists_mem_of_ne_nil _ hne with ⟨x, hx⟩
        have := (hiff x).mp hx
        omega
      · exact hpos
    have hm64 : m ≤ 64 := by
      have hmem : m - 1 ∈ accepted_cols num_outputs cs := (hiff (m - 1)).mpr (by omega)
      have := h64 _ hmem
      omega
    have hused : acc_used_cols num_outputs cs = 2 ^ m - 1 :=
      used_foldl_full (accepted_cols num_outputs cs) m hm64 hiff
    have hcond : direct_plan_cond (acc_col_max num_outputs cs) (acc_used_cols num_outputs cs)
        (accepted_cols num_outputs cs).length := by
      refine Or.inr ⟨?_, ?_, ?_⟩
      · rw [hcm]; exact hm64
      · rw [hcm, hused]; exact (required_cols_eq m hm64).symm
      · rw [hcm]; exact hlen
    rw [if_pos hcond]

/-- Zero/nonzero positions survive the renumbering loop. -/
theorem map_usage_zero_iff : ∀ (u : List Nat) (k i : Nat),
    ((map_usage k u).getD i 0 = 0 ↔ u.getD i 0 = 0) := by
  intro u
  induction u with
  | nil => intro k i; rfl
  | cons a t ih =>
    intro k i
    match a, i with
    | 0, 0 => simp [map_usage]
    | 0, i + 1 => simpa [map_usage] using ih k i
    | a + 1, 0 => simp [map_usage]
    | a + 1, i + 1 => simpa [map_usage] using ih (k + 1) i

/-- The renumbering loop preserves the vector length. -/
theorem map_usage_length : ∀ (u : List Nat) (k : Nat), (map_usage k u).length = u.length := by
  intro u
  induction u with
  | nil => intro k; rfl
  | cons a t ih =>
    intro k
    match a with
    | 0 => simpa [map_usage] using ih k
    | a + 1 => simpa [map_usage] using ih (k + 1)

/-- Positional reading of the first loop's usage vector. -/
theorem loop_usage_getD (num_outputs : Nat) (cs : List sqlite3_index_constraint)
    (i : Nat) (hi : i < cs.length) :
    (loop_usage num_outputs cs).getD i 0 =
      if constraint_accepted num_outputs (cs.getD i default) then
        col_index num_outputs (cs.getD i default) + 1 else 0 := by
  simp only [loop_usage, List.getD_eq_getElem?_getD, List.getElem?_map]
  rw [List.getElem?_eq_getElem hi]
  simp [List.getD_eq_getElem?_getD, List.getElem?_eq_getElem hi]

/-- Claim C3: the planner returns the constraint-violation rejection
exactly when some non-ignored hidden-column constraint is unusable or
not a strict equality; and in every successful plan, a constraint that
was ignored (LIMIT/OFFSET operator or output column) has argvIndex 0,
while every constraint with a nonzero argvIndex is a usable
strict-equality constraint on a hidden column. -/
theorem claim_C3 (num_outputs : Nat) (cs : List sqlite3_index_constraint) :
    (statement_vtab_best_index num_outputs cs = .constraint_violation ↔
      ∃ c ∈ cs, constraint_rejected num_outputs c) ∧
    ∀ usage idxStr, statement_vtab_best_index num_outputs cs = .ok usage idxStr →
      usage.length = cs.length ∧
      ∀ i, i < cs.length →
        (constraint_skipped num_outputs (cs.getD i default) → usage.getD i 0 = 0) ∧
        (usage.getD i 0 ≠ 0 → constraint_accepted num_outputs (cs.getD i default)) := by
  have husage : ∀ i, i < cs.length →
      ((loop_usage num_outputs cs).getD i 0 ≠ 0 ↔
        constraint_accepted num_outputs (cs.getD i default)) := by
    intro i hi
    rw [loop_usage_getD num_outputs cs i hi]
    by_cases h : constraint_accepted num_outputs (cs.getD i default)
    · simp [h]
    · simp [h]
  constructor
  · by_cases hex : ∃ c ∈ cs, constraint_rejected num_outputs c
    · simp only [hex, iff_true]
      unfold statement_vtab_best_index
      rw [(best_index_loop_none num_outputs cs ⟨0, 0, 0, []⟩).mpr hex]
    · simp only [hex, iff_false]
      have hnr : ∀ c ∈ cs, ¬constraint_rejected num_outputs c := by
        push_neg at hex
        exact hex
      rw [best_index_cond_eq num_outputs cs hnr]
      split
      · simp
      · split <;> simp
  · intro usage idxStr hok
    have hnr : ∀ c ∈ cs, ¬constraint_rejected num_outputs c := by
      intro c hc hr
      have := (best_index_loop_none num_outputs cs ⟨0, 0, 0, []⟩).mpr ⟨c, hc, hr⟩
      unfold statement_vtab_best_index at hok
      rw [this] at hok
      exact absurd hok (by simp)
    rw [best_index_cond_eq num_outputs cs hnr] at hok
    split at hok
    · have hu : usage = loop_usage num_outputs cs := by
        rw [BestIndexResult.ok.injEq] at hok
        exact hok.1.symm
      subst hu
      refine ⟨by simp [loop_usage], ?_⟩
      intro i hi
      constructor
      · intro hskip
        by_cases hz : (loop_usage num_outputs cs).getD i 0 = 0
        · exact hz
        · exact absurd ((husage i hi).mp hz) (skipped_not_accepted _ _ hskip)
      · intro hnz
        exact (husage i hi).mp hnz
    · split at hok
      · exact absurd hok (by simp)
      · have hu : usage = map_usage 0 (loop_usage num_outputs cs) := by
          rw [BestIndexResult.ok.injEq] at hok
          exact hok.1.symm
        subst hu
        refine ⟨by simp [map_usage_length, loop_usage], ?_⟩
        intro i hi
        constructor
        · intro hskip
          rw [map_usage_zero_iff]
          by_cases hz : (loop_usage num_outputs cs).getD i 0 = 0
          · exact hz
          · exact absurd ((husage i hi).mp hz) (skipped_not_accepted _ _ hskip)
        · intro hnz
          rw [ne_eq, map_usage_zero_iff] at hnz
          exact (husage i hi).mp hnz

/-- The nonzero argvIndex values of the first loop, in visit order, are
exactly the col_index+1 values of the accepted constraints. -/
theorem loop_usage_filter (num_outputs : Nat) (cs : List sqlite3_index_constraint) :
    (loop_usage num_outputs cs).filter (fun x => x ≠ 0) =
      (accepted_cols num_outputs cs).map (· + 1) := by
  induction cs with
  | nil => rfl
  | cons c t ih =>
    by_cases ha : constraint_accepted num_outputs c
    · simp [loop_usage, accepted_cols, List.filter_cons, ha] at ih ⊢
      exact ih
    · simp [loop_usage, accepted_cols, List.filter_cons, ha] at ih ⊢
      exact ih

/-- The renumbering loop turns the nonzero positions into 1, 2, 3, ... -/
theorem map_usage_filter : ∀ (u : List Nat) (k : Nat),
    (map_usage k u).filter (fun x => x ≠ 0) =
      List.range' (k + 1) ((u.filter (fun x => x ≠ 0)).length) := by
  intro u
  induction u with
  | nil => intro k; rfl
  | cons a t ih =>
    intro k
    match a with
    | 0 => simpa [map_usage, List.filter_cons] using ih k
    | a + 1 =>
      simpa [map_usage, List.filter_cons, List.range'_succ] using ih (k + 1)

/-- The payload is the concatenation of the encoded blocks of the nonzero
argvIndex values, in visit order. -/
theorem map_payload_eq : ∀ u : List Nat,
    map_payload u = ((u.filter (fun x => x ≠ 0)).map encode_param_idx).flatten := by
  intro u
  induction u with
  | nil => rfl
  | cons a t ih =>
    match a with
    | 0 => simpa [map_payload, List.filter_cons] using ih
    | a + 1 => simp [map_payload, List.filter_cons, ih]

/-- Decoding slot k of a concatenation of encoded blocks recovers the
k-th encoded value. -/
theorem decode_flatten (vs : List Nat) : ∀ k, k < vs.length → (∀ v ∈ vs, v < 2 ^ 36) →
    decode_param_idx k ((vs.map encode_param_idx).flatten) = vs.getD k 0 := by
  induction vs with
  | nil => intro k hk; simp at hk
  | cons v t ih =>
    intro k hk hv
    match k with
    | 0 =>
      simp only [List.map_cons, List.flatten_cons, List.getD_cons_zero]
      exact decode_encode_eq v _ (hv v (List.mem_cons_self v t))
    | k + 1 =>
      simp only [List.map_cons, List.flatten_cons, List.getD_cons_succ]
      rw [decode_param_idx_shift (k + 1) 1 (encode_param_idx v) _
        (by simp [encode_param_idx_length]) (by omega)]
      simpa using ih k (by simpa using hk) (fun w hw => hv w (List.mem_cons_of_mem v hw))

/-- If the direct-plan test succeeds on a nonempty accepted set, the
accepted indices are exactly the contiguous interval below their count. -/
theorem direct_cond_implies_contig (num_outputs : Nat) (cs : List sqlite3_index_constraint)
    (hne : accepted_cols num_outputs cs ≠ [])
    (h : direct_plan_cond (acc_col_max num_outputs cs) (acc_used_cols num_outputs cs)
      (accepted_cols num_outputs cs).length) :
    ∀ x, x ∈ accepted_cols num_outputs cs ↔ x < (accepted_cols num_outputs cs).length := by
  rcases h with h0 | ⟨h64, hused, hcnt⟩
  · exact absurd (List.length_eq_zero.mp h0) hne
  · intro x
    constructor
    · intro hx
      have := colmax_foldl_mem (accepted_cols num_outputs cs) 0 x hx
      unfold acc_col_max at hcnt
      omega
    · intro hx
      have hreq : acc_used_cols num_outputs cs = 2 ^ acc_col_max num_outputs cs - 1 :=
        hused.trans (required_cols_eq _ h64)
      have hbit := used_foldl_testBit (accepted_cols num_outputs cs) 0 x
      rw [show (accepted_cols num_outputs cs).foldl
            (fun u x => if x < 64 then u ||| (1 <<< x) else u) 0 = acc_used_cols num_outputs cs
          from rfl, hreq, Nat.testBit_two_pow_sub_one, Nat.zero_testBit, Bool.false_or] at hbit
      have hxlt : x < acc_col_max num_outputs cs := by omega
      rw [show decide (x < acc_col_max num_outputs cs) = true by simp [hxlt]] at hbit
      have := of_decide_eq_true hbit.symm
      exact this.1

/-- If the direct-plan test succeeds on a nonempty accepted set, every
accepted index lies in the exactly-tracked below-64 range. -/
theorem direct_cond_implies_below64 (num_outputs : Nat) (cs : List sqlite3_index_constraint)
    (hne : accepted_cols num_outputs cs ≠ [])
    (h : direct_plan_cond (acc_col_max num_outputs cs) (acc_used_cols num_outputs cs)
      (accepted_cols num_outputs cs).length) :
    ∀ x ∈ accepted_cols num_outputs cs, x < 64 := by
  rcases h with h0 | ⟨h64, hused, hcnt⟩
  · exact absurd (List.length_eq_zero.mp h0) hne
  · intro x hx
    have h2 : x + 1 ≤ acc_col_max num_outputs cs :=
      colmax_foldl_mem (accepted_cols num_outputs cs) 0 x hx
    omega

/-- Claim C2: when nothing is rejected, the accepted set is nonempty and
is not the contiguous interval below the accepted count with every index
in the exactly-tracked below-64 range — that is, exactly when the
direct-plan test fails, including contiguous sets reaching index 64 or
beyond, which the code treats as definitely non-contiguous — and the
encoding capacity check passes (with representable indices), the planner
emits a mapped plan: sequential argvIndex values 1, 2, 3, ... in visit
order, and a payload whose slot k decodes to the k-th accepted
constraint's true target parameter position col_index+1. -/
theorem claim_C2 (num_outputs : Nat) (cs : List sqlite3_index_constraint)
    (hnr : ∀ c ∈ cs, ¬constraint_rejected num_outputs c)
    (hne : accepted_cols num_outputs cs ≠ [])
    (hnc : ¬((∀ x, x ∈ accepted_cols num_outputs cs ↔
        x < (accepted_cols num_outputs cs).length) ∧
      ∀ x ∈ accepted_cols num_outputs cs, x < 64))
    (hsmall : (accepted_cols num_outputs cs).length ≤ (SIZE_MAX - 1) / param_idx_size)
    (hrep : ∀ x ∈ accepted_cols num_outputs cs, x < 2 ^ 31) :
    statement_vtab_best_index num_outputs cs =
      .ok (map_usage 0 (loop_usage num_outputs cs))
        (some (map_payload (loop_usage num_outputs cs))) ∧
    (map_usage 0 (loop_usage num_outputs cs)).filter (fun x => x ≠ 0) =
      List.range' 1 (accepted_cols num_outputs cs).length ∧
    ∀ k, k < (accepted_cols num_outputs cs).length →
      decode_param_idx k (map_payload (loop_usage num_outputs cs)) =
        (accepted_cols num_outputs cs).getD k 0 + 1 := by
  refine ⟨?_, ?_, ?_⟩
  · rw [best_index_cond_eq num_outputs cs hnr]
    rw [if_neg (fun h => hnc ⟨direct_cond_implies_contig num_outputs cs hne h,
        direct_cond_implies_below64 num_outputs cs hne h⟩),
      if_neg (Nat.not_lt.mpr hsmall)]
  · rw [map_usage_filter, loop_usage_filter]
    simp
  · intro k hk
    rw [map_payload_eq, loop_usage_filter]
    have hlen : ((accepted_cols num_outputs cs).map (· + 1)).length =
        (accepted_cols num_outputs cs).length := List.length_map _ _
    have hbound : ∀ v ∈ (accepted_cols num_outputs cs).map (· + 1), v < 2 ^ 36 := by
      intro v hv
      rcases List.mem_map.mp hv with ⟨x, hx, rfl⟩
      have := hrep x hx
      omega
    rw [decode_flatten _ k (by omega) hbound]
    rw [List.getD_eq_getElem?_getD, List.getElem?_map,
      List.getElem?_eq_getElem hk]
    simp [List.getD_eq_getElem?_getD, List.getElem?_eq_getElem hk]

/-- Claim C9: on the mapped-plan path the planner first checks the
accepted count against (SIZE_MAX-1)/param_idx_size; beyond that bound it
fails with the resource error message instead of building a payload, and
whenever the check passes the payload allocation size
count*param_idx_size+1 cannot exceed SIZE_MAX (no overflow). -/
theorem claim_C9 (num_outputs : Nat) (cs : List sqlite3_index_constraint)
    (hnr : ∀ c ∈ cs, ¬constraint_rejected num_outputs c)
    (hne : accepted_cols num_outputs cs ≠ [])
    (hnc : ¬∀ x, x ∈ accepted_cols num_outputs cs ↔ x < (accepted_cols num_outputs cs).length)
    (hbig : (accepted_cols num_outputs cs).length > (SIZE_MAX - 1) / param_idx_size) :
    statement_vtab_best_index num_outputs cs =
      .index_error ("Too many constraints to index: ".data ++
        (toString (accepted_cols num_outputs cs).length).data) ∧
    ∀ n : Nat, n ≤ (SIZE_MAX - 1) / param_idx_size → n * param_idx_size + 1 ≤ SIZE_MAX := by
  constructor
  · rw [best_index_cond_eq num_outputs cs hnr]
    rw [if_neg (fun h => hnc (direct_cond_implies_contig num_outputs cs hne h)), if_pos hbig]
  · intro n hn
    have hps : param_idx_size = 6 := rfl
    have hS : SIZE_MAX = 18446744073709551615 := rfl
    rw [hps, hS] at hn ⊢
    omega

theorem claim_C1_witness :
    statement_vtab_best_index 1 [⟨2, 2, true⟩, ⟨1, 2, true⟩] = .ok [2, 1] none ∧
      statement_vtab_best_index 1 [⟨0, 2, true⟩, ⟨1, 73, true⟩] =
        .ok (List.replicate 2 0) none := by
  constructor
  · have hiff : ∀ x : Nat, x ∈ accepted_cols 1 [⟨2, 2, true⟩, ⟨1, 2, true⟩] ↔ x < 2 := by
      intro x
      rw [show accepted_cols 1 [⟨2, 2, true⟩, ⟨1, 2, true⟩] = [1, 0] from by decide]
      simp
      omega
    have h := (claim_C1 1 [⟨2, 2, true⟩, ⟨1, 2, true⟩] (by decide)).2 2 (by decide)
      (by decide) hiff (by decide)
    exact h.trans (by decide)
  · exact (claim_C1 1 [⟨0, 2, true⟩, ⟨1, 73, true⟩] (by decide)).1 (by decide)

theorem claim_C2_witness :
    statement_vtab_best_index 1 [⟨1, 2, true⟩, ⟨3, 2, true⟩] =
        .ok [1, 2] (some (map_payload (loop_usage 1 [⟨1, 2, true⟩, ⟨3, 2, true⟩]))) ∧
      decode_param_idx 0 (map_payload (loop_usage 1 [⟨1, 2, true⟩, ⟨3, 2, true⟩])) = 1 ∧
      decode_param_idx 1 (map_payload (loop_usage 1 [⟨1, 2, true⟩, ⟨3, 2, true⟩])) = 3 ∧
      decode_param_idx 0 (map_payload (loop_usage 1 [⟨3, 2, true⟩, ⟨1, 2, true⟩])) = 3 ∧
      decode_param_idx 1 (map_payload (loop_usage 1 [⟨3, 2, true⟩, ⟨1, 2, true⟩])) = 1 ∧
      statement_vtab_best_index 1
          ((List.range 65).map (fun i => (⟨(i : Int) + 1, 2, true⟩ : sqlite3_index_constraint))) =
        .ok (map_usage 0 (loop_usage 1
            ((List.range 65).map (fun i => (⟨(i : Int) + 1, 2, true⟩ : sqlite3_index_constraint)))))
          (some (map_payload (loop_usage 1
            ((List.range 65).map (fun i => (⟨(i : Int) + 1, 2, true⟩ : sqlite3_index_constraint)))))) ∧
      decode_param_idx 64 (map_payload (loop_usage 1
        ((List.range 65).map (fun i => (⟨(i : Int) + 1, 2, true⟩ : sqlite3_index_constraint))))) =
        65 := by
  have h1 := claim_C2 1 [⟨1, 2, true⟩, ⟨3, 2, true⟩] (by decide) (by decide)
    (fun h => absurd ((h.1 1).mpr (by decide)) (by decide)) (by decide) (by decide)
  have h2 := claim_C2 1 [⟨3, 2, true⟩, ⟨1, 2, true⟩] (by decide) (by decide)
    (fun h => absurd ((h.1 1).mpr (by decide)) (by decide)) (by decide) (by decide)
  have h3 := claim_C2 1
    ((List.range 65).map (fun i => (⟨(i : Int) + 1, 2, true⟩ : sqlite3_index_constraint)))
    (by decide) (by decide)
    (fun h => absurd (h.2 64 (by decide)) (by decide)) (by decide) (by decide)
  exact ⟨h1.1.trans (by decide),
    (h1.2.2 0 (by decide)).trans (by decide),
    (h1.2.2 1 (by decide)).trans (by decide),
    (h2.2.2 0 (by decide)).trans (by decide),
    (h2.2.2 1 (by decide)).trans (by decide),
    h3.1,
    (h3.2.2 64 (by decide)).trans (by decide)⟩

theorem claim_C3_witness :
    statement_vtab_best_index 1 [⟨1, 16, true⟩] = .constraint_violation ∧
      statement_vtab_best_index 1 [⟨0, 2, true⟩, ⟨1, 2, true⟩] = .ok [0, 1] none ∧
      constraint_accepted 1
        (([⟨0, 2, true⟩, ⟨1, 2, true⟩] : List sqlite3_index_constraint).getD 1 default) :=
  ⟨(claim_C3 1 [⟨1, 16, true⟩]).1.mpr ⟨⟨1, 16, true⟩, by decide, by decide⟩,
    by decide,
    (((claim_C3 1 [⟨0, 2, true⟩, ⟨1, 2, true⟩]).2 [0, 1] none (by decide)).2 1
      (by decide)).2 (by decide)⟩

theorem claim_C9_witness :
    statement_vtab_best_index 0 (List.replicate 3074457345618258603 ⟨0, 2, true⟩) =
      .index_error ("Too many constraints to index: ".data ++
        (toString (3074457345618258603 : Nat)).data) := by
  have hacc : accepted_cols 0 (List.replicate 3074457345618258603 ⟨0, 2, true⟩) =
      List.replicate 3074457345618258603 0 := by
    unfold accepted_cols
    rw [List.filter_replicate, if_pos (by decide), List.map_replicate,
      show col_index 0 ⟨0, 2, true⟩ = 0 from by decide]
  have hnr : ∀ c ∈ List.replicate 3074457345618258603 (⟨0, 2, true⟩ : sqlite3_index_constraint),
      ¬constraint_rejected 0 c := by
    intro c hc
    rw [List.mem_replicate] at hc
    rw [hc.2]
    decide
  have hne : accepted_cols 0 (List.replicate 3074457345618258603 ⟨0, 2, true⟩) ≠ [] := by
    rw [hacc]
    intro h
    have hlen := congrArg List.length h
    rw [List.length_replicate] at hlen
    exact absurd hlen (by decide)
  have hnc : ¬∀ x, x ∈ accepted_cols 0 (List.replicate 3074457345618258603 ⟨0, 2, true⟩) ↔
      x < (accepted_cols 0 (List.replicate 3074457345618258603 ⟨0, 2, true⟩)).length := by
    intro hctg
    have h1 : (1 : Nat) ∈ List.replicate 3074457345618258603 (0 : Nat) := by
      rw [← hacc]
      apply (hctg 1).mpr
      rw [hacc, List.length_replicate]
      decide
    rw [List.mem_replicate] at h1
    exact absurd h1.2 (by decide)
  have hbig : (accepted_cols 0 (List.replicate 3074457345618258603 ⟨0, 2, true⟩)).length >
      (SIZE_MAX - 1) / param_idx_size := by
    rw [hacc, List.length_replicate]
    decide
  have h := (claim_C9 0 _ hnr hne hnc hbig).1
  rw [hacc, List.length_replicate] at h
  exact h

/-!
Cursor lemmas (claims C5, C6, C10).
-/

/-- Stepping never changes the bindings. -/
theorem sqlite3_step_bindings (b : StmtBehavior) (st : StmtState) :
    (sqlite3_step b st).2.bindings = st.bindings := by
  unfold sqlite3_step
  cases hr : st.run with
  | initial =>
    cases he : b.exec st.bindings with
    | error e => rfl
    | ok rows => cases rows <;> rfl
  | active current pending => cases pending <;> rfl
  | complete => rfl

/-- The filter body, with the reset-and-cleared statement state made
explicit (this is a definitional unfolding of statement_vtab_filter). -/
theorem statement_vtab_filter_eq (b : StmtBehavior) (cur : statement_cursor)
    (idxStr : Option (List Nat)) (argv : List SqlValue) :
    statement_vtab_filter b cur idxStr argv =
      match bind_params b idxStr 0 ⟨List.replicate b.nparams none, .initial⟩ argv with
      | .error (ret, st) =>
        (ret, ⟨st, 1, cur.param_argc, cur.param_argv⟩)
      | .ok st1 =>
        if (sqlite3_step b st1).1 = SQLITE_ROW ∨ (sqlite3_step b st1).1 = SQLITE_DONE then
          (SQLITE_OK, ⟨(sqlite3_step b st1).2, 1, argv.length, argv⟩)
        else
          ((sqlite3_step b st1).1, ⟨(sqlite3_step b st1).2, 1, cur.param_argc, cur.param_argv⟩) :=
  rfl

/-- bind_params on success: the run state is untouched, the bindings
length is preserved, and positions targeted by no argument keep their
previous content. -/
theorem bind_params_frame (b : StmtBehavior) (idxStr : Option (List Nat)) :
    ∀ (argv : List SqlValue) (i : Nat) (st st' : StmtState),
      bind_params b idxStr i st argv = .ok st' →
      st'.run = st.run ∧ st'.bindings.length = st.bindings.length ∧
      ∀ p : Nat, (∀ j, j < argv.length → filter_target idxStr (i + j) ≠ p + 1) →
        st'.bindings[p]? = st.bindings[p]? := by
  intro argv
  induction argv with
  | nil =>
    intro i st st' h
    injection h with h2
    subst h2
    exact ⟨rfl, rfl, fun p _ => rfl⟩
  | cons v vs ih =>
    intro i st st' h
    simp only [bind_params] at h
    rcases hb : sqlite3_bind_value b.nparams st (filter_target idxStr i) v with ret | st2
    · rw [hb] at h
      exact absurd h (by simp)
    · rw [hb] at h
      have h2 : bind_params b idxStr (i + 1) st2 vs = .ok st' := h
      obtain ⟨hrun, hlen, hp⟩ := ih (i + 1) st2 st' h2
      unfold sqlite3_bind_value at hb
      by_cases hcond : 1 ≤ filter_target idxStr i ∧ filter_target idxStr i ≤ b.nparams
      · rw [if_pos hcond] at hb
        injection hb with hb2
        refine ⟨?_, ?_, ?_⟩
        · rw [hrun, ← hb2]
        · rw [hlen, ← hb2]
          simp
        · intro p hp2
          have hji : ∀ j, j < vs.length → filter_target idxStr (i + 1 + j) ≠ p + 1 := by
            intro j hj
            have := hp2 (j + 1) (by simpa using Nat.succ_lt_succ hj)
            rwa [show i + (j + 1) = i + 1 + j by omega] at this
          rw [hp p hji, ← hb2]
          have h0 := hp2 0 (by simp)
          rw [Nat.add_zero] at h0
          have hne : filter_target idxStr i - 1 ≠ p := by omega
          simp [List.getElem?_set_ne hne]
      · rw [if_neg hcond] at hb
        exact absurd hb (by simp)

/-- bind_params on success with pairwise distinct targets: every
argument value is stored at its target position. -/
theorem bind_params_values (b : StmtBehavior) (idxStr : Option (List Nat)) :
    ∀ (argv : List SqlValue) (i : Nat) (st st' : StmtState),
      bind_params b idxStr i st argv = .ok st' →
      st.bindings.length = b.nparams →
      (∀ j1 j2, j1 < argv.length → j2 < argv.length → j1 ≠ j2 →
        filter_target idxStr (i + j1) ≠ filter_target idxStr (i + j2)) →
      ∀ j v, argv[j]? = some v →
        st'.bindings[filter_target idxStr (i + j) - 1]? = some (some v) := by
  intro argv
  induction argv with
  | nil =>
    intro i st st' _ _ _ j v hj
    simp at hj
  | cons v vs ih =>
    intro i st st' h hlen hinj j w hj
    simp only [bind_params] at h
    rcases hb : sqlite3_bind_value b.nparams st (filter_target idxStr i) v with ret | st2
    · rw [hb] at h
      exact absurd h (by simp)
    · rw [hb] at h
      have h2 : bind_params b idxStr (i + 1) st2 vs = .ok st' := h
      unfold sqlite3_bind_value at hb
      by_cases hcond : 1 ≤ filter_target idxStr i ∧ filter_target idxStr i ≤ b.nparams
      · rw [if_pos hcond] at hb
        injection hb with hb2
        match j with
        | 0 =>
          rw [List.getElem?_cons_zero] at hj
          injection hj with hj2
          subst hj2
          rw [Nat.add_zero]
          have hfr := (bind_params_frame b idxStr vs (i + 1) st2 st' h2).2.2
            (filter_target idxStr i - 1) ?_
          · rw [hfr, ← hb2]
            have hlt : filter_target idxStr i - 1 < st.bindings.length := by omega
            simp [List.getElem?_set_self hlt]
          · intro j' hj'
            have hne := hinj 0 (j' + 1) (by simp) (by simpa using Nat.succ_lt_succ hj') (by omega)
            rw [Nat.add_zero, show i + (j' + 1) = i + 1 + j' by omega] at hne
            have hpos : 1 ≤ filter_target idxStr i := hcond.1
            omega
        | j + 1 =>
          rw [List.getElem?_cons_succ] at hj
          have hlen2 : st2.bindings.length = b.nparams := by
            rw [← hb2]
            simpa using hlen
          have hinj2 : ∀ j1 j2, j1 < vs.length → j2 < vs.length → j1 ≠ j2 →
              filter_target idxStr (i + 1 + j1) ≠ filter_target idxStr (i + 1 + j2) := by
            intro j1 j2 h1 h2x hne
            have := hinj (j1 + 1) (j2 + 1) (by simpa using Nat.succ_lt_succ h1)
              (by simpa using Nat.succ_lt_succ h2x) (by omega)
            rwa [show i + (j1 + 1) = i + 1 + j1 by omega,
              show i + (j2 + 1) = i + 1 + j2 by omega] at this
          have := ih (i + 1) st2 st' h2 hlen2 hinj2 j w hj
          rwa [show i + (j + 1) = i + 1 + j by omega]
      · rw [if_neg hcond] at hb
        exact absurd hb (by simp)

/-- Any state reached by bind_params (success or failure) only ever adds
values drawn from the argument vector to the bindings. -/
theorem bind_params_mem (b : StmtBehavior) (idxStr : Option (List Nat)) :
    ∀ (argv : List SqlValue) (i : Nat) (st out : StmtState),
      (bind_params b idxStr i st argv = .ok out ∨
        ∃ ret, bind_params b idxStr i st argv = .error (ret, out)) →
      (out.bindings.length = st.bindings.length ∧
        ∀ (p : Nat) (v : SqlValue), out.bindings[p]? = some (some v) →
          st.bindings[p]? = some (some v) ∨ v ∈ argv) := by
  intro argv
  induction argv with
  | nil =>
    intro i st out h
    rcases h with h | ⟨ret, h⟩
    · injection h with h2
      subst h2
      exact ⟨rfl, fun p v hv => Or.inl hv⟩
    · exact absurd h (by simp [bind_params])
  | cons v vs ih =>
    intro i st out h
    rcases hb : sqlite3_bind_value b.nparams st (filter_target idxStr i) v with ret0 | st2
    · have hout : out = st := by
        rcases h with h | ⟨ret, h⟩ <;> simp only [bind_params] at h <;> rw [hb] at h
        · exact absurd h (by simp)
        · have h2 : (Except.error (ret0, st) :
              Except (Int × StmtState) StmtState) = .error (ret, out) := h
          injection h2 with h3
          exact (congrArg Prod.snd h3).symm
      subst hout
      exact ⟨rfl, fun p w hw => Or.inl hw⟩
    · have h2 : bind_params b idxStr (i + 1) st2 vs = .ok out ∨
          ∃ ret, bind_params b idxStr (i + 1) st2 vs = .error (ret, out) := by
        rcases h with h | ⟨ret, h⟩ <;> simp only [bind_params] at h <;> rw [hb] at h
        · exact Or.inl h
        · exact Or.inr ⟨ret, h⟩
      obtain ⟨hlen, hmem⟩ := ih (i + 1) st2 out h2
      unfold sqlite3_bind_value at hb
      by_cases hcond : 1 ≤ filter_target idxStr i ∧ filter_target idxStr i ≤ b.nparams
      · rw [if_pos hcond] at hb
        injection hb with hb2
        constructor
        · rw [hlen, ← hb2]
          simp
        · intro p w hw
          rcases hmem p w hw with hst2 | hvs
          · rw [← hb2] at hst2
            by_cases hpe : filter_target idxStr i - 1 = p
            · subst hpe
              by_cases hplen : filter_target idxStr i - 1 < st.bindings.length
              · rw [List.getElem?_set_self hplen] at hst2
                injection hst2 with hst3
                injection hst3 with hst4
                exact Or.inr (by rw [← hst4]; exact List.mem_cons_self v vs)
              · rw [List.getElem?_set, if_pos rfl, if_neg hplen] at hst2
                exact absurd hst2 (by simp)
            · rw [List.getElem?_set_ne hpe] at hst2
              exact Or.inl hst2
          · exact Or.inr (List.mem_cons_of_mem v hvs)
      · rw [if_neg hcond] at hb
        exact absurd hb (by simp)

/-- The only error a bind can raise in the loop is SQLITE_RANGE. -/
theorem bind_params_error_code (b : StmtBehavior) (idxStr : Option (List Nat)) :
    ∀ (argv : List SqlValue) (i : Nat) (st : StmtState) (ret : Int) (out : StmtState),
      bind_params b idxStr i st argv = .error (ret, out) → ret = SQLITE_RANGE := by
  intro argv
  induction argv with
  | nil =>
    intro i st ret out h
    exact absurd h (by simp [bind_params])
  | cons v vs ih =>
    intro i st ret out h
    simp only [bind_params] at h
    rcases hb : sqlite3_bind_value b.nparams st (filter_target idxStr i) v with r0 | st2
    · rw [hb] at h
      unfold sqlite3_bind_value at hb
      by_cases hcond : 1 ≤ filter_target idxStr i ∧ filter_target idxStr i ≤ b.nparams
      · rw [if_pos hcond] at hb
        exact absurd hb (by simp)
      · rw [if_neg hcond] at hb
        injection hb with hb2
        have h2 : (Except.error (r0, st) :
            Except (Int × StmtState) StmtState) = .error (ret, out) := h
        injection h2 with h3
        have hr : r0 = ret := congrArg Prod.fst h3
        rw [← hr, ← hb2]
    · rw [hb] at h
      exact ih (i + 1) st2 ret out h

/-- Claim C5: a successful filter call resets rowid to 1, replaces the
retained argument vector, installs exactly the supplied argument values
on a freshly cleared binding set (each argv position i at its resolved
target position, every untargeted parameter unbound regardless of the
cursor's previous state), and runs exactly one step whose outcome is the
statement's execution on those bindings; Next on a row increments rowid
and Rowid reports the rowid field. -/
theorem claim_C5 (b : StmtBehavior) (cur : statement_cursor) (idxStr : Option (List Nat))
    (argv : List SqlValue) (ret : Int) (cur' : statement_cursor)
    (heq : statement_vtab_filter b cur idxStr argv = (ret, cur'))
    (hwf : ∀ (bnd : List (Option SqlValue)) (e : Int), b.exec bnd = .error e →
      e ≠ SQLITE_OK ∧ e ≠ SQLITE_ROW ∧ e ≠ SQLITE_DONE)
    (hinj : ∀ j1 j2, j1 < argv.length → j2 < argv.length → j1 ≠ j2 →
      filter_target idxStr j1 ≠ filter_target idxStr j2)
    (hret : ret = SQLITE_OK) :
    cur'.rowid = 1 ∧
    cur'.param_argc = argv.length ∧
    cur'.param_argv = argv ∧
    (∀ (j : Nat) (v : SqlValue), argv[j]? = some v →
      cur'.stmt.bindings[filter_target idxStr j - 1]? = some (some v)) ∧
    (∀ p : Nat, p < b.nparams → (∀ j, j < argv.length → filter_target idxStr j ≠ p + 1) →
      cur'.stmt.bindings[p]? = some none) ∧
    ((b.exec cur'.stmt.bindings = .ok [] ∧ cur'.stmt.run = .complete) ∨
      ∃ r rs, b.exec cur'.stmt.bindings = .ok (r :: rs) ∧ cur'.stmt.run = .active r rs) ∧
    (∀ (cur2 : statement_cursor) (ret2 : Int) (cur2' : statement_cursor),
      statement_vtab_next b cur2 = (ret2, cur2') →
      (sqlite3_step b cur2.stmt).1 = SQLITE_ROW →
      ret2 = SQLITE_OK ∧ cur2'.rowid = cur2.rowid + 1) ∧
    statement_vtab_rowid cur' = cur'.rowid := by
  subst hret
  have hnext : ∀ (cur2 : statement_cursor) (ret2 : Int) (cur2' : statement_cursor),
      statement_vtab_next b cur2 = (ret2, cur2') →
      (sqlite3_step b cur2.stmt).1 = SQLITE_ROW →
      ret2 = SQLITE_OK ∧ cur2'.rowid = cur2.rowid + 1 := by
    intro cur2 ret2 cur2' hn hrow
    have hn2 : (if (sqlite3_step b cur2.stmt).1 = SQLITE_ROW then
        (SQLITE_OK, (⟨(sqlite3_step b cur2.stmt).2, cur2.rowid + 1, cur2.param_argc,
          cur2.param_argv⟩ : statement_cursor))
      else if (sqlite3_step b cur2.stmt).1 = SQLITE_DONE then
        (SQLITE_OK, (⟨(sqlite3_step b cur2.stmt).2, cur2.rowid, cur2.param_argc,
          cur2.param_argv⟩ : statement_cursor))
      else
        ((sqlite3_step b cur2.stmt).1,
          ⟨(sqlite3_step b cur2.stmt).2, cur2.rowid, cur2.param_argc, cur2.param_argv⟩)) =
      (ret2, cur2') := hn
    rw [if_pos hrow] at hn2
    have h3 : cur2' = (⟨(sqlite3_step b cur2.stmt).2, cur2.rowid + 1, cur2.param_argc,
        cur2.param_argv⟩ : statement_cursor) := (congrArg Prod.snd hn2).symm
    have h4 : ret2 = SQLITE_OK := (congrArg Prod.fst hn2).symm
    rw [h3]
    exact ⟨h4, rfl⟩
  rw [statement_vtab_filter_eq] at heq
  rcases hb : bind_params b idxStr 0 ⟨List.replicate b.nparams none, .initial⟩ argv
    with ⟨ret0, st0⟩ | st1
  · rw [hb] at heq
    have heq2 : (ret0, (⟨st0, 1, cur.param_argc, cur.param_argv⟩ : statement_cursor)) =
        (SQLITE_OK, cur') := heq
    have hcode := bind_params_error_code b idxStr argv 0 _ ret0 st0 hb
    have hr0 : ret0 = SQLITE_OK := congrArg Prod.fst heq2
    rw [hcode] at hr0
    exact absurd hr0 (by decide)
  · rw [hb] at heq
    have heq2 : (if (sqlite3_step b st1).1 = SQLITE_ROW ∨ (sqlite3_step b st1).1 = SQLITE_DONE then
        (SQLITE_OK, (⟨(sqlite3_step b st1).2, 1, argv.length, argv⟩ : statement_cursor))
      else
        ((sqlite3_step b st1).1,
          ⟨(sqlite3_step b st1).2, 1, cur.param_argc, cur.param_argv⟩)) =
      (SQLITE_OK, cur') := heq
    obtain ⟨hrun1, hlen1, hframe⟩ := bind_params_frame b idxStr argv 0 _ st1 hb
    have hrun1' : st1.run = .initial := hrun1
    have hlen1' : st1.bindings.length = b.nparams := by simpa using hlen1
    have hinj0 : ∀ j1 j2, j1 < argv.length → j2 < argv.length → j1 ≠ j2 →
        filter_target idxStr (0 + j1) ≠ filter_target idxStr (0 + j2) := by
      intro j1 j2 h1 h2 hne
      simpa [Nat.zero_add] using hinj j1 j2 h1 h2 hne
    have hvals : ∀ (j : Nat) (v : SqlValue), argv[j]? = some v →
        st1.bindings[filter_target idxStr j - 1]? = some (some v) := by
      intro j v hj
      have := bind_params_values b idxStr argv 0 _ st1 hb (by simp) hinj0 j v hj
      rwa [Nat.zero_add] at this
    have hnone : ∀ p : Nat, p < b.nparams →
        (∀ j, j < argv.length → filter_target idxStr j ≠ p + 1) →
        st1.bindings[p]? = some none := by
      intro p hp hmiss
      have := hframe p (by intro j hj; rw [Nat.zero_add]; exact hmiss j hj)
      rw [this]
      simp [List.getElem?_replicate, hp]
    rcases hexec : b.exec st1.bindings with e | rows
    · have hstep : sqlite3_step b st1 = (e, st1) := by
        unfold sqlite3_step
        rw [hrun1', hexec]
      obtain ⟨hne0, hneR, hneD⟩ := hwf _ e hexec
      rw [hstep] at heq2
      rw [if_neg (by simpa using not_or.mpr ⟨hneR, hneD⟩)] at heq2
      have : e = SQLITE_OK := congrArg Prod.fst heq2
      exact absurd this hne0
    · cases rows with
      | nil =>
        have hstep : sqlite3_step b st1 = (SQLITE_DONE, { st1 with run := .complete }) := by
          unfold sqlite3_step
          rw [hrun1', hexec]
        rw [hstep] at heq2
        rw [if_pos (Or.inr rfl)] at heq2
        have hcur : cur' =
            ⟨{ st1 with run := .complete }, 1, argv.length, argv⟩ :=
          (congrArg Prod.snd heq2).symm
        subst hcur
        exact ⟨rfl, rfl, rfl, hvals, hnone, Or.inl ⟨hexec, rfl⟩, hnext, rfl⟩
      | cons r rs =>
        have hstep : sqlite3_step b st1 = (SQLITE_ROW, { st1 with run := .active r rs }) := by
          unfold sqlite3_step
          rw [hrun1', hexec]
        rw [hstep] at heq2
        rw [if_pos (Or.inl rfl)] at heq2
        have hcur : cur' =
            ⟨{ st1 with run := .active r rs }, 1, argv.length, argv⟩ :=
          (congrArg Prod.snd heq2).symm
        subst hcur
        exact ⟨rfl, rfl, rfl, hvals, hnone, Or.inr ⟨r, rs, hexec, rfl⟩, hnext, rfl⟩

/-- Claim C10 (implicit): on a failing filter call (bind error, or a
step outcome that is neither a row nor done) the error code is returned
after rowid was already reset to 1 and the statement's bindings were
already cleared and partially rebound (every remaining bound value comes
from the new argument vector), but param_argc / param_argv still hold
the previous call's arguments: the error path is not atomic. -/
theorem claim_C10 (b : StmtBehavior) (cur : statement_cursor) (idxStr : Option (List Nat))
    (argv : List SqlValue) (ret : Int) (cur' : statement_cursor)
    (heq : statement_vtab_filter b cur idxStr argv = (ret, cur'))
    (hret : ret ≠ SQLITE_OK) :
    cur'.rowid = 1 ∧
    cur'.param_argc = cur.param_argc ∧
    cur'.param_argv = cur.param_argv ∧
    cur'.stmt.bindings.length = b.nparams ∧
    ∀ (p : Nat) (v : SqlValue), cur'.stmt.bindings[p]? = some (some v) → v ∈ argv := by
  rw [statement_vtab_filter_eq] at heq
  rcases hb : bind_params b idxStr 0 ⟨List.replicate b.nparams none, .initial⟩ argv
    with ⟨ret0, st0⟩ | st1
  · rw [hb] at heq
    have heq2 : (ret0, (⟨st0, 1, cur.param_argc, cur.param_argv⟩ : statement_cursor)) =
        (ret, cur') := heq
    have hcur : cur' = ⟨st0, 1, cur.param_argc, cur.param_argv⟩ :=
      (congrArg Prod.snd heq2).symm
    subst hcur
    obtain ⟨hlen, hmem⟩ := bind_params_mem b idxStr argv 0 _ st0 (Or.inr ⟨ret0, hb⟩)
    refine ⟨rfl, rfl, rfl, by simpa using hlen, ?_⟩
    intro p v hv
    rcases hmem p v hv with hrep | hvmem
    · rw [List.getElem?_replicate] at hrep
      by_cases hp : p < b.nparams
      · rw [if_pos hp] at hrep
        exact absurd hrep (by simp)
      · rw [if_neg hp] at hrep
        exact absurd hrep (by simp)
    · exact hvmem
  · rw [hb] at heq
    have heq2 : (if (sqlite3_step b st1).1 = SQLITE_ROW ∨ (sqlite3_step b st1).1 = SQLITE_DONE then
        (SQLITE_OK, (⟨(sqlite3_step b st1).2, 1, argv.length, argv⟩ : statement_cursor))
      else
        ((sqlite3_step b st1).1,
          ⟨(sqlite3_step b st1).2, 1, cur.param_argc, cur.param_argv⟩)) =
      (ret, cur') := heq
    obtain ⟨hlen, hmem⟩ := bind_params_mem b idxStr argv 0 _ st1 (Or.inl hb)
    split at heq2
    · have : SQLITE_OK = ret := congrArg Prod.fst heq2
      exact absurd this.symm hret
    · have hcur : cur' =
          ⟨(sqlite3_step b st1).2, 1, cur.param_argc, cur.param_argv⟩ :=
        (congrArg Prod.snd heq2).symm
      subst hcur
      refine ⟨rfl, rfl, rfl, ?_, ?_⟩
      · show (sqlite3_step b st1).2.bindings.length = b.nparams
        rw [sqlite3_step_bindings]
        simpa using hlen
      · intro p v hv
        rw [show ((⟨(sqlite3_step b st1).2, 1, cur.param_argc, cur.param_argv⟩ :
            statement_cursor)).stmt.bindings = (sqlite3_step b st1).2.bindings from rfl,
          sqlite3_step_bindings] at hv
        rcases hmem p v hv with hrep | hvmem
        · rw [List.getElem?_replicate] at hrep
          by_cases hp : p < b.nparams
          · rw [if_pos hp] at hrep
            exact absurd hrep (by simp)
          · rw [if_neg hp] at hrep
            exact absurd hrep (by simp)
        · exact hvmem

/-- Claim C6: with the cursor positioned on a row whose value list
matches num_outputs and the argument-vector invariant holding, a column
request below num_outputs returns the row's value at that index, a
request whose offset into the hidden range falls inside the retained
argument vector echoes that argument unchanged, and any further column
yields no value. -/
theorem claim_C6 (num_outputs : Nat) (cur : statement_cursor) (r : List SqlValue)
    (pending : List (List SqlValue))
    (hrow : cur.stmt.run = .active r pending)
    (hlen : r.length = num_outputs)
    (hargs : cur.param_argv.length = cur.param_argc) :
    (∀ i, i < num_outputs →
      statement_vtab_column num_outputs cur i = r[i]? ∧ (r[i]?).isSome) ∧
    (∀ i, num_outputs ≤ i → i - num_outputs < cur.param_argc →
      statement_vtab_column num_outputs cur i = cur.param_argv[i - num_outputs]? ∧
        (cur.param_argv[i - num_outputs]?).isSome) ∧
    (∀ i, num_outputs ≤ i → cur.param_argc ≤ i - num_outputs →
      statement_vtab_column num_outputs cur i = none) := by
  refine ⟨?_, ?_, ?_⟩
  · intro i hi
    unfold statement_vtab_column
    rw [if_pos hi, hrow]
    exact ⟨rfl, by simp [List.getElem?_eq_getElem (by omega : i < r.length)]⟩
  · intro i hge hlt
    unfold statement_vtab_column
    rw [if_neg (by omega), if_pos hlt]
    exact ⟨rfl, by simp [List.getElem?_eq_getElem (by omega : i - num_outputs <
      cur.param_argv.length)]⟩
  · intro i hge hout
    unfold statement_vtab_column
    rw [if_neg (by omega), if_neg (by omega)]

theorem claim_C5_witness :
    statement_vtab_filter ⟨2, fun _ => .ok [[SqlValue.integer 6]]⟩
        ⟨⟨[some (SqlValue.integer 9), some (SqlValue.integer 8)], .complete⟩, 5, 1,
          [SqlValue.integer 9]⟩ none [SqlValue.integer 5] =
      (SQLITE_OK, ⟨⟨[some (SqlValue.integer 5), none], .active [SqlValue.integer 6] []⟩,
        1, 1, [SqlValue.integer 5]⟩) ∧
    (⟨⟨[some (SqlValue.integer 5), none], .active [SqlValue.integer 6] []⟩,
        1, 1, [SqlValue.integer 5]⟩ : statement_cursor).rowid = 1 ∧
    (⟨⟨[some (SqlValue.integer 5), none], .active [SqlValue.integer 6] []⟩,
        1, 1, [SqlValue.integer 5]⟩ : statement_cursor).param_argv = [SqlValue.integer 5] ∧
    (⟨⟨[some (SqlValue.integer 5), none], .active [SqlValue.integer 6] []⟩,
        1, 1, [SqlValue.integer 5]⟩ : statement_cursor).stmt.bindings[0]? =
      some (some (SqlValue.integer 5)) ∧
    (⟨⟨[some (SqlValue.integer 5), none], .active [SqlValue.integer 6] []⟩,
        1, 1, [SqlValue.integer 5]⟩ : statement_cursor).stmt.bindings[1]? = some none := by
  have heq : statement_vtab_filter ⟨2, fun _ => .ok [[SqlValue.integer 6]]⟩
      ⟨⟨[some (SqlValue.integer 9), some (SqlValue.integer 8)], .complete⟩, 5, 1,
        [SqlValue.integer 9]⟩ none [SqlValue.integer 5] =
      (SQLITE_OK, ⟨⟨[some (SqlValue.integer 5), none], .active [SqlValue.integer 6] []⟩,
        1, 1, [SqlValue.integer 5]⟩) := by decide
  have h := claim_C5 ⟨2, fun _ => .ok [[SqlValue.integer 6]]⟩
    ⟨⟨[some (SqlValue.integer 9), some (SqlValue.integer 8)], .complete⟩, 5, 1,
      [SqlValue.integer 9]⟩ none [SqlValue.integer 5] SQLITE_OK _ heq
    (by intro bnd e he; simp at he)
    (by intro j1 j2 h1 h2 hne; simp [filter_target]; omega)
    rfl
  refine ⟨heq, h.1, h.2.2.1, ?_, ?_⟩
  · exact h.2.2.2.1 0 (SqlValue.integer 5) rfl
  · refine h.2.2.2.2.1 1 (by decide) ?_
    intro j hj
    have hj0 : j = 0 := by simpa using hj
    subst hj0
    decide

theorem claim_C10_witness :
    statement_vtab_filter ⟨2, fun _ => .ok [[SqlValue.integer 6]]⟩
        ⟨⟨[some (SqlValue.integer 9), some (SqlValue.integer 8)], .complete⟩, 5, 1,
          [SqlValue.integer 9]⟩ (some (encode_param_idx 0)) [SqlValue.integer 5] =
      (SQLITE_RANGE, ⟨⟨[none, none], .initial⟩, 1, 1, [SqlValue.integer 9]⟩) ∧
    (⟨⟨[none, none], .initial⟩, 1, 1, [SqlValue.integer 9]⟩ : statement_cursor).rowid = 1 ∧
    (⟨⟨[none, none], .initial⟩, 1, 1, [SqlValue.integer 9]⟩ : statement_cursor).param_argc = 1 ∧
    (⟨⟨[none, none], .initial⟩, 1, 1,
      [SqlValue.integer 9]⟩ : statement_cursor).param_argv = [SqlValue.integer 9] ∧
    (⟨⟨[none, none], .initial⟩, 1, 1,
      [SqlValue.integer 9]⟩ : statement_cursor).stmt.bindings.length = 2 := by
  have heq : statement_vtab_filter ⟨2, fun _ => .ok [[SqlValue.integer 6]]⟩
      ⟨⟨[some (SqlValue.integer 9), some (SqlValue.integer 8)], .complete⟩, 5, 1,
        [SqlValue.integer 9]⟩ (some (encode_param_idx 0)) [SqlValue.integer 5] =
      (SQLITE_RANGE, ⟨⟨[none, none], .initial⟩, 1, 1, [SqlValue.integer 9]⟩) := by decide
  have h := claim_C10 ⟨2, fun _ => .ok [[SqlValue.integer 6]]⟩
    ⟨⟨[some (SqlValue.integer 9), some (SqlValue.integer 8)], .complete⟩, 5, 1,
      [SqlValue.integer 9]⟩ (some (encode_param_idx 0)) [SqlValue.integer 5]
    SQLITE_RANGE _ heq (by decide)
  exact ⟨heq, h.1, h.2.1, h.2.2.1, h.2.2.2.1⟩

theorem claim_C6_witness :
    statement_vtab_column 1
        ⟨⟨[some (SqlValue.integer 5)], .active [SqlValue.integer 6] []⟩, 1, 1,
          [SqlValue.integer 5]⟩ 0 = some (SqlValue.integer 6) ∧
    statement_vtab_column 1
        ⟨⟨[some (SqlValue.integer 5)], .active [SqlValue.integer 6] []⟩, 1, 1,
          [SqlValue.integer 5]⟩ 1 = some (SqlValue.integer 5) ∧
    statement_vtab_column 1
        ⟨⟨[some (SqlValue.integer 5)], .active [SqlValue.integer 6] []⟩, 1, 1,
          [SqlValue.integer 5]⟩ 2 = none := by
  have h := claim_C6 1
    ⟨⟨[some (SqlValue.integer 5)], .active [SqlValue.integer 6] []⟩, 1, 1,
      [SqlValue.integer 5]⟩ [SqlValue.integer 6] [] rfl rfl rfl
  exact ⟨((h.1 0 (by decide)).1).trans (by decide),
    ((h.2.1 1 (by decide) (by decide)).1).trans (by decide),
    h.2.2 2 (by decide) (by decide)⟩

/-!
Schema builder lemmas (claim C7).
-/

theorem flatten_comma_ne_nil (fs : List (List Char)) (h : fs ≠ []) :
    (fs.map (fun f => f ++ [','])).flatten ≠ [] := by
  cases fs with
  | nil => exact absurd rfl h
  | cons f rest => simp

/-- Dropping the final comma of the concatenated comma-terminated
fragments yields the comma-separated join. -/
theorem flatten_comma_dropLast : ∀ fs : List (List Char), fs ≠ [] →
    ((fs.map (fun f => f ++ [','])).flatten).dropLast = comma_join fs := by
  intro fs
  induction fs with
  | nil => intro h; exact absurd rfl h
  | cons f rest ih =>
    intro _
    cases rest with
    | nil => simp [comma_join]
    | cons f2 rest2 =>
      rw [List.map_cons, List.flatten_cons,
        List.dropLast_append_of_ne_nil _ (flatten_comma_ne_nil (f2 :: rest2) (by simp)),
        ih (by simp)]
      simp [comma_join, List.append_assoc]

/-- Claim C7: the built schema string is the fixed prefix, then the
comma-separated fragments of all result columns in statement order
(quoted name, declared type or empty), then one hidden column per bind
parameter in parameter order (declared name with the leading marker
character stripped, or the 1-based ordinal when unnamed), closed with a
parenthesis. -/
theorem claim_C7 (outputs : List ColumnInfo) (params : List (Option (List Char)))
    (h : outputs ≠ [] ∨ params ≠ []) :
    build_create_statement outputs params =
      "CREATE TABLE x( ".data ++
        comma_join (outputs.map out_fragment ++ params.mapIdx param_fragment) ++ [')'] := by
  have hfo : outputs.map (fun c => quote_q c.name ++ [' '] ++ c.decltype.getD [] ++ [',']) =
      (outputs.map out_fragment).map (fun f => f ++ [',']) := by
    rw [List.map_map]
    apply List.map_congr_left
    intro c _
    simp [out_fragment, Function.comp, List.append_assoc]
  have hfi : params.mapIdx (fun i name => match name with
      | some nm => quote_q (nm.drop 1) ++ " hidden,".data
      | none => [squote] ++ (toString (i + 1)).data ++ [squote] ++ " hidden,".data) =
      (params.mapIdx param_fragment).map (fun f => f ++ [',']) := by
    rw [List.mapIdx_eq_enum_map, List.mapIdx_eq_enum_map, List.map_map]
    apply List.map_congr_left
    intro p _
    obtain ⟨i, name⟩ := p
    cases name with
    | some nm =>
      show quote_q (nm.drop 1) ++ " hidden,".data =
        (quote_q (nm.drop 1) ++ " hidden".data) ++ [',']
      rw [show (" hidden,".data : List Char) = " hidden".data ++ [','] from rfl,
        List.append_assoc]
    | none =>
      show [squote] ++ (toString (i + 1)).data ++ [squote] ++ " hidden,".data =
        ([squote] ++ (toString (i + 1)).data ++ [squote] ++ " hidden".data) ++ [',']
      rw [show (" hidden,".data : List Char) = " hidden".data ++ [','] from rfl]
      simp [List.append_assoc]
  have hne : outputs.map out_fragment ++ params.mapIdx param_fragment ≠ [] := by
    rcases h with h | h
    · intro hc
      exact h (List.map_eq_nil_iff.mp (List.append_eq_nil.mp hc).1)
    · intro hc
      have h2 := (List.append_eq_nil.mp hc).2
      rw [List.mapIdx_eq_enum_map] at h2
      exact h (by simpa using List.map_eq_nil_iff.mp h2)
  show ("CREATE TABLE x( ".data ++
      (outputs.map (fun c => quote_q c.name ++ [' '] ++ c.decltype.getD [] ++ [','])).flatten ++
      (params.mapIdx (fun i name => match name with
        | some nm => quote_q (nm.drop 1) ++ " hidden,".data
        | none => [squote] ++ (toString (i + 1)).data ++ [squote] ++
            " hidden,".data)).flatten).dropLast ++ [')'] = _
  rw [hfo, hfi, List.append_assoc, ← List.flatten_append, ← List.map_append,
    List.dropLast_append_of_ne_nil _ (flatten_comma_ne_nil _ hne),
    flatten_comma_dropLast _ hne]

theorem claim_C7_witness :
    (([⟨"a".data, none⟩, ⟨"b".data, none⟩] : List ColumnInfo) ≠ [] ∨
      ([some ":x".data, some ":y".data] : List (Option (List Char))) ≠ []) ∧
    build_create_statement [⟨"a".data, none⟩, ⟨"b".data, none⟩]
        [some ":x".data, some ":y".data] =
      "CREATE TABLE x( ".data ++
        comma_join ([⟨"a".data, none⟩, ⟨"b".data, none⟩].map out_fragment ++
          [some ":x".data, some ":y".data].mapIdx param_fragment) ++ [')'] ∧
    build_create_statement [⟨"a".data, none⟩, ⟨"b".data, none⟩]
        [some ":x".data, some ":y".data] =
      "CREATE TABLE x( ".data ++ quote_q "a".data ++ " ,".data ++
        quote_q "b".data ++ " ,".data ++ quote_q "x".data ++ " hidden,".data ++
        quote_q "y".data ++ " hidden".data ++ [')'] :=
  ⟨Or.inl (by decide),
    claim_C7 [⟨"a".data, none⟩, ⟨"b".data, none⟩] [some ":x".data, some ":y".data]
      (Or.inl (by decide)),
    by decide⟩

/-!
Table creation (claim C8).
-/

/-- Counterexample to claim C8 as stated: two configuration arguments
(argc = 5) are not a definition error; creation succeeds, silently
ignoring the extra argument, so "accepts exactly one configuration
argument, and anything else is a definition error" fails on the
more-than-one side. -/
theorem claim_C8_counterexample :
    statement_vtab_create (fun _ => .ok ⟨true, [⟨['r'], none⟩], []⟩)
      ["statement".data, "main".data, "t".data, "(select 1)".data, "extra".data] =
      .ok ⟨"select 1".data, 0, 1⟩ := rfl

/-- Claim C8, amended: creation uses the first configuration argument
(argv[3]) and ignores any further ones; a missing or too-short (empty)
statement text, a non-parenthesized text, and a non-read-only statement
are each reported at creation time as usage errors with no table
produced, and a table is produced only when every check passes. -/
theorem claim_C8 (prepare : List Char → Except (Int × List Char) PrepareResult)
    (argv : List (List Char)) :
    (argv.length < 4 ∨ (argv.getD 3 []).length < 3 →
      statement_vtab_create prepare argv =
        .error (SQLITE_MISUSE, "no statement provided".data)) ∧
    (4 ≤ argv.length → 3 ≤ (argv.getD 3 []).length →
      ((argv.getD 3 []).head? ≠ some '(' ∨ (argv.getD 3 []).getLast? ≠ some ')') →
      statement_vtab_create prepare argv =
        .error (SQLITE_MISUSE, "statement must be parenthesized".data)) ∧
    (∀ p : PrepareResult, 4 ≤ argv.length → 3 ≤ (argv.getD 3 []).length →
      (argv.getD 3 []).head? = some '(' → (argv.getD 3 []).getLast? = some ')' →
      prepare (((argv.getD 3 []).drop 1).dropLast) = .ok p → p.readonly = false →
      statement_vtab_create prepare argv =
        .error (SQLITE_ERROR, "Statement must be read only.".data)) ∧
    (∀ vtab : statement_vtab, statement_vtab_create prepare argv = .ok vtab →
      4 ≤ argv.length ∧ 3 ≤ (argv.getD 3 []).length ∧
      (argv.getD 3 []).head? = some '(' ∧ (argv.getD 3 []).getLast? = some ')' ∧
      ∃ p : PrepareResult, prepare (((argv.getD 3 []).drop 1).dropLast) = .ok p ∧
        p.readonly = true ∧
        vtab = ⟨((argv.getD 3 []).drop 1).dropLast, p.params.length, p.outputs.length⟩) ∧
    (4 ≤ argv.length → ∀ extra : List Char,
      statement_vtab_create prepare (argv ++ [extra]) =
        statement_vtab_create prepare argv) := by
  refine ⟨?_, ?_, ?_, ?_, ?_⟩
  · intro h
    unfold statement_vtab_create
    rw [if_pos h]
  · intro h1 h2 h3
    unfold statement_vtab_create
    rw [if_neg (by push_neg; exact ⟨by omega, by omega⟩), if_pos h3]
  · intro p h1 h2 h3 h4 hp hro
    unfold statement_vtab_create
    rw [if_neg (by push_neg; exact ⟨by omega, by omega⟩),
      if_neg (by push_neg; exact ⟨h3, h4⟩), hp]
    show (if p.readonly = false then _ else _) = _
    rw [if_pos hro]
  · intro vtab hok
    unfold statement_vtab_create at hok
    by_cases h1 : argv.length < 4 ∨ (argv.getD 3 []).length < 3
    · rw [if_pos h1] at hok
      exact absurd hok (by simp)
    · rw [if_neg h1] at hok
      push_neg at h1
      by_cases h2 : (argv.getD 3 []).head? ≠ some '(' ∨ (argv.getD 3 []).getLast? ≠ some ')'
      · rw [if_pos h2] at hok
        exact absurd hok (by simp)
      · rw [if_neg h2] at hok
        push_neg at h2
        rcases hp : prepare (((argv.getD 3 []).drop 1).dropLast) with e | p
        · rw [hp] at hok
          obtain ⟨code, msg⟩ := e
          exact absurd hok (by simp)
        · rw [hp] at hok
          have hok2 : (if p.readonly = false then
              (.error (SQLITE_ERROR, "Statement must be read only.".data) :
                Except (Int × List Char) statement_vtab)
            else
              .ok ⟨((argv.getD 3 []).drop 1).dropLast, p.params.length,
                p.outputs.length⟩) = .ok vtab := hok
          by_cases hro : p.readonly = false
          · rw [if_pos hro] at hok2
            exact absurd hok2 (by simp)
          · rw [if_neg hro] at hok2
            injection hok2 with hv
            exact ⟨by omega, by omega, h2.1, h2.2,
              p, rfl, by simpa using hro, hv.symm⟩
  · intro h4 extra
    have hgd : (argv ++ [extra]).getD 3 [] = argv.getD 3 [] :=
      List.getD_append _ _ _ 3 (by omega)
    unfold statement_vtab_create
    rw [hgd]
    by_cases h1 : (argv.getD 3 []).length < 3
    · rw [if_pos (Or.inr h1), if_pos (Or.inr h1)]
    · have hc1 : ¬((argv ++ [extra]).length < 4 ∨ (argv.getD 3 []).length < 3) := by
        push_neg
        refine ⟨?_, by omega⟩
        rw [List.length_append, List.length_singleton]
        omega
      have hc2 : ¬(argv.length < 4 ∨ (argv.getD 3 []).length < 3) := by
        push_neg
        exact ⟨by omega, by omega⟩
      rw [if_neg hc1, if_neg hc2]

theorem claim_C8_witness :
    statement_vtab_create (fun _ => .ok ⟨true, [⟨['r'], none⟩], []⟩)
        ["s".data, "m".data, "t".data] =
      .error (SQLITE_MISUSE, "no statement provided".data) ∧
    statement_vtab_create (fun _ => .ok ⟨true, [⟨['r'], none⟩], []⟩)
        ["s".data, "m".data, "t".data, "select 1".data] =
      .error (SQLITE_MISUSE, "statement must be parenthesized".data) ∧
    statement_vtab_create (fun _ => .ok ⟨false, [], []⟩)
        ["s".data, "m".data, "t".data, "(delete from x)".data] =
      .error (SQLITE_ERROR, "Statement must be read only.".data) ∧
    statement_vtab_create (fun _ => .ok ⟨true, [⟨['r'], none⟩], []⟩)
        (["s".data, "m".data, "t".data, "(select 1)".data] ++ ["extra".data]) =
      statement_vtab_create (fun _ => .ok ⟨true, [⟨['r'], none⟩], []⟩)
        ["s".data, "m".data, "t".data, "(select 1)".data] :=
  ⟨(claim_C8 (fun _ => .ok ⟨true, [⟨['r'], none⟩], []⟩) _).1 (Or.inl (by decide)),
    (claim_C8 (fun _ => .ok ⟨true, [⟨['r'], none⟩], []⟩) _).2.1 (by decide) (by decide)
      (Or.inl (by decide)),
    (claim_C8 (fun _ => .ok ⟨false, [], []⟩) _).2.2.1 ⟨false, [], []⟩ (by decide) (by decide)
      (by decide) (by decide) rfl rfl,
    (claim_C8 (fun _ => .ok ⟨true, [⟨['r'], none⟩], []⟩) _).2.2.2.2 (by decide) "extra".data⟩

end StatementVtab
